import Mathlib

/-!
# Verification of the `aws-util-dynamodb` DynamoDB client wrapper

Shallow embedding of `dist/AWSUtil/DynamoDB/DynamoDbClientWrapper.js` and
`dist/AWSUtil/DynamoDB/dynamodb-types.js`.

Modelling conventions:
* JavaScript exceptions are modelled with `Except JsError`; a thrown error
  carries its `name` (used by the code to branch, e.g.
  `ResourceNotFoundException`, `ArgumentError`) and a message.
* The AWS `DynamoDBClient` is a parameter: a `Server` record of response
  functions over an abstract server-state type.  Every `send` is recorded in
  a call trace, so "zero network calls" and "exactly one create call" are
  statements about the trace.
* Marshalling/unmarshalling is the identity on the modelled record
  (`DbItem`): the wrapper treats marshalled data opaquely, and the claims
  under verification only inspect which values are carried, not the wire
  encoding.  Timestamps (`createdAt`/`updatedAt`, `MarkUpdated`) are not
  modelled; no claim mentions them.
* The two genuinely unbounded loops of the source (the DescribeTable poll
  loop in `CreateTable` and the do/while page loops of `Scan`/`Query`)
  take an explicit fuel argument; running out of fuel yields the
  distinguished error `fuelError`, which no modelled server ever produces.
-/

namespace AwsUtilDynamo

/-- A JavaScript `Error`: the wrapper branches on `name`
(`error.name === 'ResourceNotFoundException'` etc.). -/
structure JsError where
  name : String
  message : String
deriving DecidableEq, Repr

/-- `ArgumentError` from `DynamoDbClientWrapper.js`: a fresh `Error` whose
`name` is set to `ArgumentError`. -/
def ArgumentError (message : String) : JsError :=
  { name := "ArgumentError", message := message }

/-- A plain `new Error(message)` (name `Error`). -/
def jsError (message : String) : JsError :=
  { name := "Error", message := message }

/-- Distinguished error returned when the model runs out of poll/page fuel;
it does not correspond to any behaviour of the source, and the theorems
below always provide enough fuel for it never to occur. -/
def fuelError : JsError :=
  { name := "ModelOutOfFuel", message := "model fuel exhausted" }

/-- A key value: JavaScript `string | number | boolean` as accepted for
id/range parameters. -/
inductive KeyVal where
  | s (v : String)
  | n (v : Int)
  | b (v : Bool)
deriving DecidableEq, Repr

/-- `typeof v === 'string' && v.length === 0`. -/
def KeyVal.isEmptyString : KeyVal → Bool
  | KeyVal.s v => v.length = 0
  | _ => false

/-- The empty-string test applied to an optional (possibly `undefined`)
parameter, as in `typeof range === 'string' && range.length === 0`. -/
def KeyVal.isEmptyStringOpt : Option KeyVal → Bool
  | some v => v.isEmptyString
  | none => false

/-- `DynamoDbVersionedItem.INITIAL_VERSION_NUMBER = -1`: the version number
of a new object which has not been inserted into DynamoDb. -/
def INITIAL_VERSION_NUMBER : Int := -1

/-- The static, per-record-type information of an `IDynamoDbItem`
implementation: `BaseTableName()`, `IdFieldName()`, `RangeFieldName()`,
`TTLFieldName()`, `GlobalSecondaryIndexes()` (by `IndexName`, the only part
of a GSI the wrapper inspects) and `AttributeDefinitions()`
(name/type pairs). -/
structure ItemType where
  baseTableName : String
  idFieldName : String
  rangeFieldName : Option String
  ttlFieldName : Option String
  gsis : Option (List String)
  attributeDefinitions : List (String × String)
deriving DecidableEq, Repr

/-- A record instance: its type descriptor, the value of its id field, and
its `version` property (`none` models an unversioned item whose `Version()`
returns `undefined`). -/
structure DbItem where
  type : ItemType
  id : String
  version : Option Int
deriving DecidableEq, Repr

/-- `DynamoDbVersionedItem.Version(version)` (the setter branch, reached
only when the argument is a number; on a versioned item `this.version` is
a number).  The special case allows resetting `0 → -1` after a failed
first insert; other negative targets throw. -/
def DbItem.VersionSet (it : DbItem) (v : Int) : Except JsError DbItem :=
  if it.version = some 0 ∧ v = INITIAL_VERSION_NUMBER then
    Except.ok { it with version := some v }
  else if v < 0 then
    Except.error (jsError "version must be a positive integer")
  else
    Except.ok { it with version := some v }

/-- `DynamoDbVersionedItem.IncrementVersion()`: throws when `Version()` is
`undefined`, otherwise `Version(v + 1)`. -/
def DbItem.IncrementVersion (it : DbItem) : Except JsError DbItem :=
  match it.version with
  | none => Except.error (jsError "Version is undefined, IncrementVersion is not allowed")
  | some v => it.VersionSet (v + 1)

/-- The `Table` / `TableDescription` shape the wrapper reads: name, status
and the names of the global secondary indexes (`undefined` when the table
has none). -/
structure TableDescription where
  TableName : String
  TableStatus : String
  GlobalSecondaryIndexes : Option (List String)
deriving DecidableEq, Repr

/-- The parts of a `CreateTableInput` the model tracks. -/
structure CreateTableInput where
  TableName : String
  AttributeDefinitions : List (String × String)
  GlobalSecondaryIndexes : Option (List String)
deriving DecidableEq, Repr

/-- A single global-secondary-index mutation inside an
`UpdateTableCommand` (`{Delete: {IndexName}}` or
`{Create: {...gsi}}` together with the `AttributeDefinitions` the code
attaches to create calls). -/
inductive GsiUpdate where
  | del (IndexName : String)
  | create (IndexName : String) (AttributeDefinitions : List (String × String))
deriving DecidableEq, Repr

/-- The conditional guard of a `PutItemCommand`: either
`ConditionExpression = 'version = :version'` with
`ExpressionAttributeValues {':version': v}`, or
`ConditionExpression = 'attribute_not_exists(version)'`. -/
inductive Cond where
  | versionEquals (v : Int)
  | attributeNotExists
deriving DecidableEq, Repr

/-- The `PutItemCommand` input (marshalling is the identity on `DbItem`). -/
structure PutParams where
  TableName : String
  Item : DbItem
  Condition : Option Cond
deriving DecidableEq, Repr

/-- The `GetItemCommand` input. -/
structure GetItemParams where
  TableName : String
  Key : List (String × KeyVal)
  ConsistentRead : Option Bool
deriving DecidableEq, Repr

/-- The `DeleteItemCommand` input. -/
structure DeleteItemParams where
  TableName : String
  Key : List (String × KeyVal)
  ReturnValues : String
deriving DecidableEq, Repr

/-- The `QueryCommand` input: the key condition is kept structured
(partition equality plus optional sort-key equality) rather than as the
`#name = :val` strings the code interpolates. -/
structure QueryParams where
  TableName : String
  IndexName : Option String
  partitionKey : String × KeyVal
  rangeKey : Option (String × KeyVal)
  FilterExpression : Option String
  Limit : Option Nat
  ExclusiveStartKey : Option String
deriving DecidableEq, Repr

/-- The `ScanCommand` input: both filter clauses are optional. -/
structure ScanParams where
  TableName : String
  IndexName : Option String
  partitionFilter : Option (String × KeyVal)
  rangeFilter : Option (String × KeyVal)
  FilterExpression : Option String
  Limit : Option Nat
  ExclusiveStartKey : Option String
deriving DecidableEq, Repr

/-- One page of `Query`/`Scan` output: `Items` plus the continuation
cursor `LastEvaluatedKey` (`none` = no further page). -/
structure Page where
  Items : List DbItem
  LastEvaluatedKey : Option String
deriving DecidableEq, Repr

/-- One `send` on the underlying client, as recorded in the call trace. -/
inductive DbCall where
  | listTables
  | describeTable (TableName : String)
  | createTable (input : CreateTableInput)
  | updateTable (TableName : String) (update : GsiUpdate)
  | updateTimeToLive (TableName : String) (AttributeName : String)
  | putItem (params : PutParams)
  | getItem (params : GetItemParams)
  | deleteItem (params : DeleteItemParams)
  | query (params : QueryParams)
  | scan (params : ScanParams)
deriving DecidableEq, Repr

/-- The DynamoDB service, abstracted: a state type `σ` and one response
function per command.  Instantiations below script or simulate the
service per scenario. -/
structure Server (σ : Type) where
  listTables : σ → Except JsError (List String) × σ
  describeTable : String → σ → Except JsError (Option TableDescription) × σ
  createTable : CreateTableInput → σ → Except JsError (Option TableDescription) × σ
  updateTable : String → GsiUpdate → σ → Except JsError Unit × σ
  updateTimeToLive : String → String → σ → Except JsError Bool × σ
  putItem : PutParams → σ → Except JsError Unit × σ
  getItem : GetItemParams → σ → Except JsError (Option DbItem) × σ
  deleteItem : DeleteItemParams → σ → Except JsError (Option DbItem) × σ
  query : QueryParams → σ → Except JsError Page × σ
  scan : ScanParams → σ → Except JsError Page × σ

/-- Server state plus the trace of every client call issued so far. -/
structure World (σ : Type) where
  server : σ
  trace : List DbCall

variable {σ : Type}

/-- `this.DynamoDbClient.send(new ListTablesCommand({}))`. -/
def sendListTables (S : Server σ) (w : World σ) :
    Except JsError (List String) × World σ :=
  let r := S.listTables w.server
  (r.1, { server := r.2, trace := w.trace ++ [DbCall.listTables] })

/-- `send(new DescribeTableCommand({TableName}))`, response `out?.Table`. -/
def sendDescribeTable (S : Server σ) (name : String) (w : World σ) :
    Except JsError (Option TableDescription) × World σ :=
  let r := S.describeTable name w.server
  (r.1, { server := r.2, trace := w.trace ++ [DbCall.describeTable name] })

/-- `send(new CreateTableCommand(table))`, response `data.TableDescription`. -/
def sendCreateTable (S : Server σ) (input : CreateTableInput) (w : World σ) :
    Except JsError (Option TableDescription) × World σ :=
  let r := S.createTable input w.server
  (r.1, { server := r.2, trace := w.trace ++ [DbCall.createTable input] })

/-- `send(new UpdateTableCommand(...))` carrying one GSI mutation. -/
def sendUpdateTable (S : Server σ) (name : String) (u : GsiUpdate) (w : World σ) :
    Except JsError Unit × World σ :=
  let r := S.updateTable name u w.server
  (r.1, { server := r.2, trace := w.trace ++ [DbCall.updateTable name u] })

/-- `send(new UpdateTimeToLiveCommand(...))`, response
`data.TimeToLiveSpecification.Enabled`. -/
def sendUpdateTimeToLive (S : Server σ) (name attr : String) (w : World σ) :
    Except JsError Bool × World σ :=
  let r := S.updateTimeToLive name attr w.server
  (r.1, { server := r.2, trace := w.trace ++ [DbCall.updateTimeToLive name attr] })

/-- `send(new PutItemCommand(params))`. -/
def sendPutItem (S : Server σ) (params : PutParams) (w : World σ) :
    Except JsError Unit × World σ :=
  let r := S.putItem params w.server
  (r.1, { server := r.2, trace := w.trace ++ [DbCall.putItem params] })

/-- `send(new GetItemCommand(params))`, response `Item`. -/
def sendGetItem (S : Server σ) (params : GetItemParams) (w : World σ) :
    Except JsError (Option DbItem) × World σ :=
  let r := S.getItem params w.server
  (r.1, { server := r.2, trace := w.trace ++ [DbCall.getItem params] })

/-- `send(new DeleteItemCommand(params))`, response `Attributes`. -/
def sendDeleteItem (S : Server σ) (params : DeleteItemParams) (w : World σ) :
    Except JsError (Option DbItem) × World σ :=
  let r := S.deleteItem params w.server
  (r.1, { server := r.2, trace := w.trace ++ [DbCall.deleteItem params] })

/-- `send(new QueryCommand(params))`. -/
def sendQuery (S : Server σ) (params : QueryParams) (w : World σ) :
    Except JsError Page × World σ :=
  let r := S.query params w.server
  (r.1, { server := r.2, trace := w.trace ++ [DbCall.query params] })

/-- `send(new ScanCommand(params))`. -/
def sendScan (S : Server σ) (params : ScanParams) (w : World σ) :
    Except JsError Page × World σ :=
  let r := S.scan params w.server
  (r.1, { server := r.2, trace := w.trace ++ [DbCall.scan params] })

/-- `GenerateTableName`: `prefix.baseName` when a (non-empty) table name
namespacing value is configured, else the base name.  `pfx = none` models
a falsy prefix. -/
def GenerateTableName (pfx : Option String) (baseTableName : String) : String :=
  match pfx with
  | some p => p ++ "." ++ baseTableName
  | none => baseTableName

/-- `CreateSchema`: synthesize the create-table request from the
descriptor (billing mode, streaming and key schema are not tracked by the
model; no claim mentions them). -/
def CreateSchema (pfx : Option String) (t : ItemType) : CreateTableInput :=
  { TableName := GenerateTableName pfx t.baseTableName
    AttributeDefinitions := t.attributeDefinitions
    GlobalSecondaryIndexes := t.gsis }

/-- `_CreateKeyMapping`: the id field plus, when the descriptor declares a
range field, the mandatory range value; a declared range field with an
`undefined` range argument throws `ArgumentError`. -/
def createKeyMapping (t : ItemType) (id : KeyVal) (range : Option KeyVal) :
    Except JsError (List (String × KeyVal)) :=
  match t.rangeFieldName with
  | none => Except.ok [(t.idFieldName, id)]
  | some rf =>
    match range with
    | some r => Except.ok [(t.idFieldName, id), (rf, r)]
    | none => Except.error (ArgumentError "The IDynamoDbItem defines a RangeFieldName but an undefined range parameter was provided. If a Range field is defined in the table schema for DynamoDB, you MUST provide it to lookup an item.")

/-- `ListTables`: returns the table names (the `|| []` default is folded
into the server response type); an error is logged and re-thrown, so the
whole try/catch is the identity on the send result. -/
def ListTables (S : Server σ) (w : World σ) :
    Except JsError (List String) × World σ :=
  sendListTables S w

/-- `DescribeTable`: `undefined` when the table does not exist
(`ResourceNotFoundException` or a mismatching/missing `Table` in the
response); all other errors are re-thrown. -/
def DescribeTable (S : Server σ) (tableName : String) (w : World σ) :
    Except JsError (Option TableDescription) × World σ :=
  let r := sendDescribeTable S tableName w
  (match r.1 with
   | Except.ok (some t) =>
     if t.TableName = tableName then Except.ok (some t)
     else Except.ok none
   | Except.ok none => Except.ok none
   | Except.error e =>
     if e.name = "ResourceNotFoundException" then Except.ok none
     else Except.error e,
   r.2)

/-- The `while (waitForActive && tableDescription.TableStatus != 'ACTIVE')`
poll loop of `CreateTable`: re-describe every 500 ms; a poll error or a
missing `Table` in a poll response is thrown out of the loop. -/
def pollActive (S : Server σ) (waitForActive : Bool) :
    Nat → TableDescription → World σ →
    Except JsError TableDescription × World σ
  | fuel, desc, w =>
    if waitForActive ∧ desc.TableStatus ≠ "ACTIVE" then
      match fuel with
      | 0 => (Except.error fuelError, w)
      | fuel + 1 =>
        match sendDescribeTable S desc.TableName w with
        | (Except.ok (some t), w) => pollActive S waitForActive fuel t w
        | (Except.ok none, w) =>
          (Except.error (jsError ("Unable to describe table " ++ desc.TableName)), w)
        | (Except.error e, w) => (Except.error e, w)
    else (Except.ok desc, w)

/-- `CreateTable`: empty TTL attribute name throws `ArgumentError`; an
error from the create request itself (or a response without a
`TableDescription`) is caught, logged, and turned into an `undefined`
return; poll-loop errors are re-thrown; afterwards the settle delay is a
no-op in the model and, when a TTL attribute is supplied, the
enable-TTL call must succeed or its failure is thrown. -/
def CreateTable (S : Server σ) (pollFuel : Nat) (input : CreateTableInput)
    (waitForActive : Bool) (ttlAttributeName : Option String) (w : World σ) :
    Except JsError (Option TableDescription) × World σ :=
  if (match ttlAttributeName with
      | some t => t.length == 0
      | none => false) then
    (Except.error (ArgumentError "ttlAttributeName cannot be an empty string"), w)
  else
    match sendCreateTable S input w with
    | (Except.error _, w) => (Except.ok none, w)
    | (Except.ok none, w) => (Except.ok none, w)
    | (Except.ok (some desc), w) =>
      match pollActive S waitForActive pollFuel desc w with
      | (Except.error e, w) => (Except.error e, w)
      | (Except.ok desc, w) =>
        match ttlAttributeName with
        | some ttl =>
          match sendUpdateTimeToLive S desc.TableName ttl w with
          | (Except.ok true, w) => (Except.ok (some desc), w)
          | (Except.ok false, w) =>
            (Except.error (jsError ("Unable to enable TTL on " ++ desc.TableName ++ " using attribute " ++ ttl)), w)
          | (Except.error e, w) => (Except.error e, w)
        | none => (Except.ok (some desc), w)

/-- `CreateTableIfNotExists`: if `ListTables` already contains the table
return its description, else create it. -/
def CreateTableIfNotExists (S : Server σ) (pollFuel : Nat)
    (input : CreateTableInput) (waitForActive : Bool)
    (ttlAttributeName : Option String) (w : World σ) :
    Except JsError (Option TableDescription) × World σ :=
  match ListTables S w with
  | (Except.error e, w) => (Except.error e, w)
  | (Except.ok tables, w) =>
    if tables.contains input.TableName then
      DescribeTable S input.TableName w
    else
      CreateTable S pollFuel input waitForActive ttlAttributeName w

/-- `existingTables = existingTables || await this.ListTables()`: use the
caller-supplied listing when present, else ask the service. -/
def initialTableListing (S : Server σ) (existingTables : Option (List String))
    (w : World σ) : Except JsError (List String) × World σ :=
  match existingTables with
  | some ts => (Except.ok ts, w)
  | none => ListTables S w

/-- `InitializeTable`: list tables (unless a listing was supplied), do
nothing when the generated table name already exists, otherwise create
via `CreateTableIfNotExists` and throw a fatal error on a falsy result. -/
def InitializeTable (pfx : Option String) (S : Server σ) (pollFuel : Nat)
    (t : ItemType) (existingTables : Option (List String)) (w : World σ) :
    Except JsError Unit × World σ :=
  match initialTableListing S existingTables w with
  | (Except.error e, w) => (Except.error e, w)
  | (Except.ok tables, w) =>
    let tableName := GenerateTableName pfx t.baseTableName
    if tables.contains tableName then
      (Except.ok (), w)
    else
      match CreateTableIfNotExists S pollFuel (CreateSchema pfx t) true t.ttlFieldName w with
      | (Except.error e, w) => (Except.error e, w)
      | (Except.ok (some _), w) => (Except.ok (), w)
      | (Except.ok none, w) =>
        (Except.error (jsError ("Fatal Error: Could not create " ++ tableName)), w)

/-- The first loop of `UpdateTable`: for each GSI currently on the table
whose `IndexName` is not found among the declared indexes, issue one
`UpdateTableCommand` with a single `Delete` mutation.  Errors of an update
call propagate (there is no try/catch around the loop). -/
def updateTableDeleteLoop (S : Server σ) (TableName : String)
    (gsiCurrent : Option (List String)) :
    List String → World σ → Except JsError Unit × World σ
  | [], w => (Except.ok (), w)
  | g :: rest, w =>
    if (gsiCurrent.getD []).contains g then
      updateTableDeleteLoop S TableName gsiCurrent rest w
    else
      match sendUpdateTable S TableName (GsiUpdate.del g) w with
      | (Except.ok _, w) => updateTableDeleteLoop S TableName gsiCurrent rest w
      | (Except.error e, w) => (Except.error e, w)

/-- The second loop of `UpdateTable`: for each declared GSI whose
`IndexName` is not found on the (originally described) table, issue one
`UpdateTableCommand` with a single `Create` mutation carrying the item's
`AttributeDefinitions`. -/
def updateTableCreateLoop (S : Server σ) (TableName : String)
    (AttributeDefinitions : List (String × String))
    (tableGsis : Option (List String)) :
    List String → World σ → Except JsError Unit × World σ
  | [], w => (Except.ok (), w)
  | g :: rest, w =>
    if (tableGsis.getD []).contains g then
      updateTableCreateLoop S TableName AttributeDefinitions tableGsis rest w
    else
      match sendUpdateTable S TableName (GsiUpdate.create g AttributeDefinitions) w with
      | (Except.ok _, w) =>
        updateTableCreateLoop S TableName AttributeDefinitions tableGsis rest w
      | (Except.error e, w) => (Except.error e, w)

/-- `UpdateTable`: describe the table (absent table throws), delete live
GSIs absent from the item definition, create declared GSIs absent live
(each mutation a separate call, diffed by `IndexName` only), then return
a fresh description. -/
def UpdateTable (pfx : Option String) (S : Server σ) (t : ItemType)
    (w : World σ) : Except JsError (Option TableDescription) × World σ :=
  let TableName := GenerateTableName pfx t.baseTableName
  match DescribeTable S TableName w with
  | (Except.error e, w) => (Except.error e, w)
  | (Except.ok none, w) =>
    (Except.error (jsError ("Table Not Found: " ++ TableName)), w)
  | (Except.ok (some table), w) =>
    let gsiCurrent := t.gsis
    match updateTableDeleteLoop S TableName gsiCurrent
        (table.GlobalSecondaryIndexes.getD []) w with
    | (Except.error e, w) => (Except.error e, w)
    | (Except.ok _, w) =>
      match updateTableCreateLoop S TableName t.attributeDefinitions
          table.GlobalSecondaryIndexes (gsiCurrent.getD []) w with
      | (Except.error e, w) => (Except.error e, w)
      | (Except.ok _, w) => DescribeTable S TableName w

/-- The options accepted by `GetItems`/`Query`/`Scan`
(`IGetItemsOptions`). -/
structure GetItemsOptions where
  IndexName : Option String := none
  IndexPartitionKeyFieldName : Option String := none
  IndexRangeFieldName : Option String := none
  ConsistentRead : Option Bool := none
  Limit : Option Nat := none
  IgnoreTableNotFound : Option Bool := none
  FilterExpression : Option String := none
  ExclusiveStartKey : Option String := none
deriving DecidableEq, Repr

/-- The sort-key clause shared by `Scan` and `Query`: a provided range
value without a resolvable range field name
(`options.IndexRangeFieldName ?? typeShell.RangeFieldName()`) throws. -/
def rangeClause (t : ItemType) (opts : GetItemsOptions)
    (range : Option KeyVal) : Except JsError (Option (String × KeyVal)) :=
  match range with
  | none => Except.ok none
  | some r =>
    match opts.IndexRangeFieldName <|> t.rangeFieldName with
    | none =>
      Except.error (jsError "Range value was provided but Range Field name cannot be determined.")
    | some sk => Except.ok (some (sk, r))

/-- The `do { ... } while (params.ExclusiveStartKey !== undefined &&
(options.Limit === undefined || items.length < options.Limit))` loop of
`Scan`, including the catch clause around it: on
`ResourceNotFoundException`, return the accumulated items when
`IgnoreTableNotFound` is `true`, else re-throw; all other errors
re-throw. -/
def scanLoop (S : Server σ) (ignoreTableNotFound : Bool)
    (limit : Option Nat) :
    Nat → ScanParams → List DbItem → World σ →
    Except JsError (List DbItem) × World σ
  | 0, _, _, w => (Except.error fuelError, w)
  | fuel + 1, params, items, w =>
    match sendScan S params w with
    | (Except.ok page, w) =>
      let items := items ++ page.Items
      let params := { params with ExclusiveStartKey := page.LastEvaluatedKey }
      if params.ExclusiveStartKey.isSome &&
          (limit.isNone || decide (items.length < limit.getD 0)) then
        scanLoop S ignoreTableNotFound limit fuel params items w
      else
        (Except.ok items, w)
    | (Except.error e, w) =>
      if e.name = "ResourceNotFoundException" then
        if ignoreTableNotFound then (Except.ok items, w)
        else (Except.error e, w)
      else (Except.error e, w)

/-- `Scan`: empty-string id/range are rejected first; filter clauses are
built (partition clause only when an id is provided), then the page loop
runs. -/
def Scan (pfx : Option String) (S : Server σ) (pageFuel : Nat)
    (t : ItemType) (id : Option KeyVal) (range : Option KeyVal)
    (opts : GetItemsOptions) (w : World σ) :
    Except JsError (List DbItem) × World σ :=
  if KeyVal.isEmptyStringOpt id then
    (Except.error (ArgumentError "id cannot be an empty string"), w)
  else if KeyVal.isEmptyStringOpt range then
    (Except.error (ArgumentError "range cannot be an empty string"), w)
  else
    match rangeClause t opts range with
    | Except.error e => (Except.error e, w)
    | Except.ok rangeFilter =>
      let params : ScanParams :=
        { TableName := GenerateTableName pfx t.baseTableName
          IndexName := opts.IndexName
          partitionFilter :=
            id.map (fun i => (opts.IndexPartitionKeyFieldName.getD t.idFieldName, i))
          rangeFilter := rangeFilter
          FilterExpression := opts.FilterExpression
          Limit := opts.Limit
          ExclusiveStartKey := opts.ExclusiveStartKey }
      scanLoop S (opts.IgnoreTableNotFound.getD false) opts.Limit pageFuel params [] w

/-- The page loop of `Query`; identical control flow to the `Scan` loop. -/
def queryLoop (S : Server σ) (ignoreTableNotFound : Bool)
    (limit : Option Nat) :
    Nat → QueryParams → List DbItem → World σ →
    Except JsError (List DbItem) × World σ
  | 0, _, _, w => (Except.error fuelError, w)
  | fuel + 1, params, items, w =>
    match sendQuery S params w with
    | (Except.ok page, w) =>
      let items := items ++ page.Items
      let params := { params with ExclusiveStartKey := page.LastEvaluatedKey }
      if params.ExclusiveStartKey.isSome &&
          (limit.isNone || decide (items.length < limit.getD 0)) then
        queryLoop S ignoreTableNotFound limit fuel params items w
      else
        (Except.ok items, w)
    | (Except.error e, w) =>
      if e.name = "ResourceNotFoundException" then
        if ignoreTableNotFound then (Except.ok items, w)
        else (Except.error e, w)
      else (Except.error e, w)

/-- `Query`: empty-string id/range are rejected first; the key condition
is the partition clause plus an optional sort clause, then the page loop
runs. -/
def Query (pfx : Option String) (S : Server σ) (pageFuel : Nat)
    (t : ItemType) (id : KeyVal) (range : Option KeyVal)
    (opts : GetItemsOptions) (w : World σ) :
    Except JsError (List DbItem) × World σ :=
  if id.isEmptyString then
    (Except.error (ArgumentError "id cannot be an empty string"), w)
  else if KeyVal.isEmptyStringOpt range then
    (Except.error (ArgumentError "range cannot be an empty string"), w)
  else
    match rangeClause t opts range with
    | Except.error e => (Except.error e, w)
    | Except.ok rangeKey =>
      let params : QueryParams :=
        { TableName := GenerateTableName pfx t.baseTableName
          IndexName := opts.IndexName
          partitionKey := (opts.IndexPartitionKeyFieldName.getD t.idFieldName, id)
          rangeKey := rangeKey
          FilterExpression := opts.FilterExpression
          Limit := opts.Limit
          ExclusiveStartKey := opts.ExclusiveStartKey }
      queryLoop S (opts.IgnoreTableNotFound.getD false) opts.Limit pageFuel params [] w

/-- `GetItems`: `Query` when an id is provided, else `Scan` with an
`undefined` id. -/
def GetItems (pfx : Option String) (S : Server σ) (pageFuel : Nat)
    (t : ItemType) (id : Option KeyVal) (range : Option KeyVal)
    (opts : GetItemsOptions) (w : World σ) :
    Except JsError (List DbItem) × World σ :=
  match id with
  | some i => Query pfx S pageFuel t i range opts w
  | none => Scan pfx S pageFuel t none range opts w

/-- The options accepted by `GetItem` (`IGetItemOptions`); absent fields
model `undefined`.  `GetItem` defaults `Required` to `true` and
`IgnoreTableNotFound` to `false`. -/
structure GetItemOptions where
  Required : Option Bool := none
  IgnoreTableNotFound : Option Bool := none
  IndexName : Option String := none
  IndexPartitionKeyFieldName : Option String := none
  IndexRangeFieldName : Option String := none
  ConsistentRead : Option Bool := none
deriving DecidableEq, Repr

/-- `GetItem`: empty-string id/range are rejected first; with an
`IndexName` the call is delegated to `GetItems` (forwarding only the four
index/consistency options) and the first element of the result (or
`undefined`) is returned; otherwise a `GetItemCommand` runs, a missing
item throws when `Required` (default `true`) and table-not-found errors
respect `IgnoreTableNotFound`. -/
def GetItem (pfx : Option String) (S : Server σ) (pageFuel : Nat)
    (t : ItemType) (id : KeyVal) (range : Option KeyVal)
    (opts : GetItemOptions) (w : World σ) :
    Except JsError (Option DbItem) × World σ :=
  if id.isEmptyString then
    (Except.error (ArgumentError "id cannot be an empty string"), w)
  else if KeyVal.isEmptyStringOpt range then
    (Except.error (ArgumentError "range cannot be an empty string"), w)
  else
    match opts.IndexName with
    | some ix =>
      match GetItems pfx S pageFuel t (some id) range
          { IndexName := some ix
            IndexPartitionKeyFieldName := opts.IndexPartitionKeyFieldName
            IndexRangeFieldName := opts.IndexRangeFieldName
            ConsistentRead := opts.ConsistentRead } w with
      | (Except.ok items, w) => (Except.ok items.head?, w)
      | (Except.error e, w) => (Except.error e, w)
    | none =>
      match createKeyMapping t id range with
      | Except.error e => (Except.error e, w)
      | Except.ok key =>
        let params : GetItemParams :=
          { TableName := GenerateTableName pfx t.baseTableName
            Key := key
            ConsistentRead := opts.ConsistentRead }
        match sendGetItem S params w with
        | (Except.ok (some found), w) => (Except.ok (some found), w)
        | (Except.ok none, w) =>
          if opts.Required.getD true then
            (Except.error (jsError ("Unable to retrieve item from " ++ params.TableName)), w)
          else (Except.ok none, w)
        | (Except.error e, w) =>
          if e.name = "ResourceNotFoundException" then
            if opts.IgnoreTableNotFound.getD false then (Except.ok none, w)
            else (Except.error e, w)
          else (Except.error e, w)

/-- The result of `DeleteItem`: a boolean, or (for `ALL_OLD`) the deleted
item. -/
inductive DeleteOutcome where
  | bool (value : Bool)
  | item (value : DbItem)
deriving DecidableEq, Repr

/-- `DeleteItem`: empty-string id/range are rejected first; a delete error
is logged and re-thrown; with `ALL_OLD`, missing attributes yield `false`
and present attributes the unmarshalled item, otherwise `true`. -/
def DeleteItem (pfx : Option String) (S : Server σ) (t : ItemType)
    (id : KeyVal) (range : Option KeyVal) (returnValue : String)
    (w : World σ) : Except JsError DeleteOutcome × World σ :=
  if id.isEmptyString then
    (Except.error (ArgumentError "id cannot be an empty string"), w)
  else if KeyVal.isEmptyStringOpt range then
    (Except.error (ArgumentError "range cannot be an empty string"), w)
  else
    match createKeyMapping t id range with
    | Except.error e => (Except.error e, w)
    | Except.ok key =>
      let params : DeleteItemParams :=
        { TableName := GenerateTableName pfx t.baseTableName
          Key := key
          ReturnValues := returnValue }
      match sendDeleteItem S params w with
      | (Except.error e, w) => (Except.error e, w)
      | (Except.ok attrs, w) =>
        if attrs = none ∧ returnValue = "ALL_OLD" then
          (Except.ok (DeleteOutcome.bool false), w)
        else if returnValue = "ALL_OLD" then
          match attrs with
          | none =>
            (Except.error (jsError "DeleteItem appeared to succeed however ALL_OLD was specified and no attributes are returned"), w)
          | some a => (Except.ok (DeleteOutcome.item a), w)
        else (Except.ok (DeleteOutcome.bool true), w)

/-- The options accepted by `PutItem` (`IPutItemOptions`):
`CreateTableIfNotExists` opts into self-healing, `Class` supplies the
constructor for schema inference. -/
structure PutOptions where
  CreateTableIfNotExists : Bool
  Class : Option ItemType
deriving DecidableEq, Repr

/-- The guard chosen by `PutItem` for a versioned item: version equality
when the old version exceeds the `-1` sentinel, else absence of the
version attribute. -/
def putGuard (v : Int) : Cond :=
  if v > INITIAL_VERSION_NUMBER then Cond.versionEquals v
  else Cond.attributeNotExists

/-- The pre-send phase of `PutItem` for the version handling: no guard for
an unversioned item; for a versioned item choose the guard from the old
version and increment the in-memory version (which can throw). -/
def putPrep (item : DbItem) : Except JsError (Option Cond × DbItem) :=
  match item.version with
  | some v =>
    match item.IncrementVersion with
    | Except.ok item2 => Except.ok (some (putGuard v), item2)
    | Except.error e => Except.error e
  | none => Except.ok (none, item)

/-- `PutItem`.  For a versioned item the guard is version equality when
the old version exceeds the initial sentinel, else absence of the version
attribute, and the version is incremented before the send.  On a send
error the version is rolled back; with `CreateTableIfNotExists` and a
missing `Class` a fresh error is thrown; on `ResourceNotFoundException`
with a genuinely absent table, the table is initialized and the put is
retried exactly once with self-healing disabled.  Every other error is
logged and re-thrown.  Returns the result, the (mutated) item, and the
world. -/
def PutItem (pfx : Option String) (S : Server σ) (pollFuel : Nat)
    (item : DbItem) (opts : PutOptions) (w : World σ) :
    Except JsError Bool × DbItem × World σ :=
  let oldVersion := item.version
  match putPrep item with
  | Except.error e => (Except.error e, item, w)
  | Except.ok (c, item2) =>
    let params : PutParams :=
      { TableName := GenerateTableName pfx item2.type.baseTableName
        Item := item2
        Condition := c }
    match sendPutItem S params w with
    | (Except.ok _, w) => (Except.ok true, item2, w)
    | (Except.error err, w) =>
      match (match oldVersion with
             | some v => item2.VersionSet v
             | none => Except.ok item2) with
      | Except.error e => (Except.error e, item2, w)
      | Except.ok item3 =>
        if _h : opts.CreateTableIfNotExists then
          match opts.Class with
          | none =>
            (Except.error (jsError "Cannot infer type to create table. Class is required in the options in order to create the table."), item3, w)
          | some cls =>
            if err.name = "ResourceNotFoundException" then
              match ListTables S w with
              | (Except.error e, w) => (Except.error e, item3, w)
              | (Except.ok existingTables, w) =>
                if existingTables.contains params.TableName then
                  (Except.error err, item3, w)
                else
                  match InitializeTable pfx S pollFuel cls (some existingTables) w with
                  | (Except.error e, w) => (Except.error e, item3, w)
                  | (Except.ok _, w) =>
                    PutItem pfx S pollFuel item3
                      { CreateTableIfNotExists := false, Class := none } w
            else (Except.error err, item3, w)
        else (Except.error err, item3, w)
termination_by cond opts.CreateTableIfNotExists 1 0
decreasing_by simp [_h]

/-! ## Concrete instantiations used by witnesses and counterexamples -/

/-- A server that answers every command successfully with empty data
(state `Unit`). -/
def unitServer : Server Unit where
  listTables := fun s => (Except.ok [], s)
  describeTable := fun _ s => (Except.ok none, s)
  createTable := fun i s =>
    (Except.ok (some { TableName := i.TableName, TableStatus := "ACTIVE",
                       GlobalSecondaryIndexes := i.GlobalSecondaryIndexes }), s)
  updateTable := fun _ _ s => (Except.ok (), s)
  updateTimeToLive := fun _ _ s => (Except.ok true, s)
  putItem := fun _ s => (Except.ok (), s)
  getItem := fun _ s => (Except.ok none, s)
  deleteItem := fun _ s => (Except.ok none, s)
  query := fun _ s => (Except.ok { Items := [], LastEvaluatedKey := none }, s)
  scan := fun _ s => (Except.ok { Items := [], LastEvaluatedKey := none }, s)

/-- A simple record type: string id, no range, no TTL, no indexes. -/
def thingType : ItemType :=
  { baseTableName := "Things", idFieldName := "id", rangeFieldName := none
    ttlFieldName := none, gsis := none, attributeDefinitions := [("id", "S")] }

/-! ## Version-arithmetic helper lemmas -/

theorem IncrementVersion_of_ge (it : DbItem) (v : Int)
    (hv : it.version = some v) (h : INITIAL_VERSION_NUMBER ≤ v) :
    it.IncrementVersion = Except.ok { it with version := some (v + 1) } := by
  unfold DbItem.IncrementVersion DbItem.VersionSet INITIAL_VERSION_NUMBER at *
  rw [hv]
  have h1 : ¬ (v + 1 = -1) := by omega
  have h2 : ¬ (v + 1 < 0) := by omega
  simp [h1, h2]

theorem IncrementVersion_of_lt (it : DbItem) (v : Int)
    (hv : it.version = some v) (h : v < INITIAL_VERSION_NUMBER) :
    it.IncrementVersion =
      Except.error (jsError "version must be a positive integer") := by
  unfold DbItem.IncrementVersion DbItem.VersionSet INITIAL_VERSION_NUMBER at *
  rw [hv]
  have h1 : ¬ (it.version = some 0 ∧ v + 1 = -1) := by
    intro hc
    rw [hv] at hc
    have := hc.1
    simp at this
    omega
  rw [hv] at h1
  have h2 : v + 1 < 0 := by omega
  simp [h2]
  intro hc
  omega

theorem VersionSet_rollback (it : DbItem) (v : Int)
    (hv : it.version = some (v + 1)) (h : INITIAL_VERSION_NUMBER ≤ v) :
    it.VersionSet v = Except.ok { it with version := some v } := by
  unfold DbItem.VersionSet INITIAL_VERSION_NUMBER at *
  rcases eq_or_lt_of_le h with h1 | h1
  · have : it.version = some 0 := by rw [hv]; congr 1; omega
    simp [this, h1.symm]
  · have h2 : ¬ (it.version = some 0 ∧ v = -1) := by
      intro hc
      omega
    have h3 : ¬ (v < 0) := by omega
    simp [h2, h3]

/-! ## Trace monotonicity: each operation only appends to the call trace -/

theorem ListTables_trace (S : Server σ) (w : World σ) :
    (ListTables S w).2.trace = w.trace ++ [DbCall.listTables] := rfl

theorem DescribeTable_trace (S : Server σ) (n : String) (w : World σ) :
    (DescribeTable S n w).2.trace = w.trace ++ [DbCall.describeTable n] := rfl

theorem pollActive_trace_mono (S : Server σ) (wa : Bool) (fuel : Nat)
    (d : TableDescription) (w : World σ) :
    ∃ r, (pollActive S wa fuel d w).2.trace = w.trace ++ r := by
  induction fuel generalizing d w with
  | zero =>
    rw [pollActive]
    split
    · exact ⟨[], by simp⟩
    · exact ⟨[], by simp⟩
  | succ n ih =>
    rw [pollActive]
    split
    · unfold sendDescribeTable
      cases h : S.describeTable d.TableName w.server with
      | mk res s2 =>
        simp only [h]
        cases res with
        | ok out =>
          cases out with
          | some t =>
            obtain ⟨r, hr⟩ := ih t
              { server := s2, trace := w.trace ++ [DbCall.describeTable d.TableName] }
            exact ⟨DbCall.describeTable d.TableName :: r, by simpa using hr⟩
          | none => exact ⟨_, rfl⟩
        | error e => exact ⟨_, rfl⟩
    · exact ⟨[], by simp⟩

theorem CreateTable_trace_mono (S : Server σ) (pollFuel : Nat)
    (input : CreateTableInput) (wa : Bool) (ttl : Option String)
    (w : World σ) :
    ∃ r, (CreateTable S pollFuel input wa ttl w).2.trace = w.trace ++ r := by
  unfold CreateTable sendCreateTable sendUpdateTimeToLive
  split
  · exact ⟨[], by simp⟩
  · cases h : S.createTable input w.server with
    | mk res s2 =>
      simp only [h]
      cases res with
      | error e => exact ⟨_, rfl⟩
      | ok out =>
        cases out with
        | none => exact ⟨_, rfl⟩
        | some desc =>
          obtain ⟨r, hr⟩ := pollActive_trace_mono S wa pollFuel desc
            { server := s2, trace := w.trace ++ [DbCall.createTable input] }
          cases hp : pollActive S wa pollFuel desc
            { server := s2, trace := w.trace ++ [DbCall.createTable input] } with
          | mk pres w2 =>
            rw [hp] at hr
            simp only [hp]
            cases pres with
            | error e => exact ⟨DbCall.createTable input :: r, by simpa using hr⟩
            | ok desc2 =>
              cases ttl with
              | none => exact ⟨DbCall.createTable input :: r, by simpa using hr⟩
              | some ttlName =>
                cases hu : S.updateTimeToLive desc2.TableName ttlName w2.server with
                | mk ures s3 =>
                  simp only [hu]
                  cases ures with
                  | ok b =>
                    cases b
                    · exact ⟨DbCall.createTable input :: r ++
                        [DbCall.updateTimeToLive desc2.TableName ttlName],
                        by simp at hr; simp [hr]⟩
                    · exact ⟨DbCall.createTable input :: r ++
                        [DbCall.updateTimeToLive desc2.TableName ttlName],
                        by simp at hr; simp [hr]⟩
                  | error e =>
                    exact ⟨DbCall.createTable input :: r ++
                      [DbCall.updateTimeToLive desc2.TableName ttlName],
                      by simp at hr; simp [hr]⟩

theorem CreateTableIfNotExists_trace_mono (S : Server σ) (pollFuel : Nat)
    (input : CreateTableInput) (wa : Bool) (ttl : Option String)
    (w : World σ) :
    ∃ r, (CreateTableIfNotExists S pollFuel input wa ttl w).2.trace =
      w.trace ++ r := by
  unfold CreateTableIfNotExists
  have hlt := ListTables_trace S w
  cases h : ListTables S w with
  | mk res w1 =>
    rw [h] at hlt
    simp at hlt
    cases res with
    | error e => simp only [h]; exact ⟨[DbCall.listTables], hlt⟩
    | ok tables =>
      simp only [h]
      split
      · have hd := DescribeTable_trace S input.TableName w1
        exact ⟨[DbCall.listTables, DbCall.describeTable input.TableName],
          by rw [hd, hlt]; simp⟩
      · obtain ⟨r, hr⟩ := CreateTable_trace_mono S pollFuel input wa ttl w1
        exact ⟨DbCall.listTables :: r, by rw [hr, hlt]; simp⟩

theorem InitializeTable_trace_mono (pfx : Option String) (S : Server σ)
    (pollFuel : Nat) (t : ItemType) (ex : Option (List String))
    (w : World σ) :
    ∃ r, (InitializeTable pfx S pollFuel t ex w).2.trace = w.trace ++ r := by
  unfold InitializeTable
  cases hl : initialTableListing S ex w with
  | mk res w1 =>
    have hw1 : ∃ q, w1.trace = w.trace ++ q := by
      cases ex with
      | some ts =>
        rw [initialTableListing] at hl
        cases hl
        exact ⟨[], by simp⟩
      | none =>
        have hlt := ListTables_trace S w
        rw [show initialTableListing S none w = ListTables S w from rfl] at hl
        rw [hl] at hlt
        simp at hlt
        exact ⟨[DbCall.listTables], hlt⟩
    obtain ⟨q, hq⟩ := hw1
    cases res with
    | error e => simp only [hl]; exact ⟨q, hq⟩
    | ok tables =>
      simp only [hl]
      split
      · exact ⟨q, hq⟩
      · cases hc : CreateTableIfNotExists S pollFuel (CreateSchema pfx t) true
            t.ttlFieldName w1 with
        | mk cres w2 =>
          obtain ⟨r, hr⟩ := CreateTableIfNotExists_trace_mono S pollFuel
            (CreateSchema pfx t) true t.ttlFieldName w1
          rw [hc] at hr
          simp at hr
          cases cres with
          | error e => simp only [hc]; exact ⟨q ++ r, by simp [hr, hq]⟩
          | ok out =>
            cases out <;> (simp only [hc]; exact ⟨q ++ r, by simp [hr, hq]⟩)

/-! ## putPrep characterization -/

theorem putPrep_none (item : DbItem) (h : item.version = none) :
    putPrep item = Except.ok (none, item) := by
  unfold putPrep
  rw [h]

theorem putPrep_some_ge (item : DbItem) (v : Int) (hv : item.version = some v)
    (hge : INITIAL_VERSION_NUMBER ≤ v) :
    putPrep item =
      Except.ok (some (putGuard v), { item with version := some (v + 1) }) := by
  unfold putPrep
  rw [hv, IncrementVersion_of_ge item v hv hge]

theorem putPrep_some_lt (item : DbItem) (v : Int) (hv : item.version = some v)
    (hlt : v < INITIAL_VERSION_NUMBER) :
    putPrep item =
      Except.error (jsError "version must be a positive integer") := by
  unfold putPrep
  rw [hv, IncrementVersion_of_lt item v hv hlt]

/-- With self-healing disabled (`CreateTableIfNotExists: false`), a failed
`PutItem` leaves the in-memory version at its pre-call value, and the
trace only grows. -/
theorem PutItem_noheal_spec (pfx : Option String) (S : Server σ)
    (pollFuel : Nat) (item : DbItem) (cls : Option ItemType) (w : World σ) :
    (∀ e, (PutItem pfx S pollFuel item
        { CreateTableIfNotExists := false, Class := cls } w).1 = Except.error e →
      (PutItem pfx S pollFuel item
        { CreateTableIfNotExists := false, Class := cls } w).2.1.version =
        item.version) ∧
    (∃ r, (PutItem pfx S pollFuel item
        { CreateTableIfNotExists := false, Class := cls } w).2.2.trace =
      w.trace ++ r) := by
  rw [PutItem]
  cases hv : item.version with
  | none =>
    rw [putPrep_none item hv]
    simp only [hv]
    split
    · rename_i u w2 heq
      have htr := congrArg (fun x => x.2.trace) heq
      simp [sendPutItem] at htr
      constructor
      · intro e he
        simp at he
      · exact ⟨_, htr.symm⟩
    · rename_i err w2 heq
      have htr := congrArg (fun x => x.2.trace) heq
      simp [sendPutItem] at htr
      constructor
      · intro e he
        simp [hv]
      · exact ⟨_, htr.symm⟩
  | some v =>
    rcases le_or_lt INITIAL_VERSION_NUMBER v with hge | hlt
    · rw [putPrep_some_ge item v hv hge]
      simp only [hv]
      split
      · rename_i u w2 heq
        have htr := congrArg (fun x => x.2.trace) heq
        simp [sendPutItem] at htr
        constructor
        · intro e he
          simp at he
        · exact ⟨_, htr.symm⟩
      · rename_i err w2 heq
        have htr := congrArg (fun x => x.2.trace) heq
        simp [sendPutItem] at htr
        rw [VersionSet_rollback { item with version := some (v + 1) } v
          (by simp) hge]
        constructor
        · intro e he
          simp [hv]
        · exact ⟨_, htr.symm⟩
    · rw [putPrep_some_lt item v hv hlt]
      constructor
      · intro e he
        simp [hv]
      · exact ⟨[], by simp⟩

/-- Case analysis over every `PutItem` path: when the result is an error,
the returned record carries its original version (the optimistic bump has
been rolled back, or was never applied). -/
theorem putItem_version_preserved_on_error (pfx : Option String)
    (S : Server σ) (pollFuel : Nat) (item : DbItem) (opts : PutOptions)
    (w : World σ) :
    ∀ e, (PutItem pfx S pollFuel item opts w).1 = Except.error e →
      (PutItem pfx S pollFuel item opts w).2.1.version = item.version := by
  rw [PutItem]
  cases hv : item.version with
  | none =>
    simp only [putPrep_none item hv]
    split
    · intro e he
      simp at he
    · split
      · split
        · intro e he
          simp [hv]
        · split
          · split
            · intro e he
              simp [hv]
            · split
              · intro e he
                simp [hv]
              · split
                · intro e he
                  simp [hv]
                · intro e he
                  have h1 := (PutItem_noheal_spec pfx S pollFuel _ none _).1 e he
                  rw [h1, hv]
          · intro e he
            simp [hv]
      · intro e he
        simp [hv]
  | some v =>
    rcases le_or_lt INITIAL_VERSION_NUMBER v with hge | hlt
    · simp only [putPrep_some_ge item v hv hge]
      split
      · intro e he
        simp at he
      · simp only [VersionSet_rollback { item with version := some (v + 1) } v
          (by simp) hge]
        split
        · split
          · intro e he
            simp
          · split
            · split
              · intro e he
                simp
              · split
                · intro e he
                  simp
                · split
                  · intro e he
                    simp
                  · intro e he
                    have h1 := (PutItem_noheal_spec pfx S pollFuel _ none _).1 e he
                    rw [h1]
            · intro e he
              simp
        · intro e he
          simp
    · simp only [putPrep_some_lt item v hv hlt]
      intro e he
      simp [hv]

/-- C1: for a versioned record, whenever `PutItem` propagates an error,
the in-memory version of the record handed back equals its exact
pre-increment (pre-call) value. -/
theorem putItem_failure_restores_version (pfx : Option String)
    (S : Server σ) (pollFuel : Nat) (item : DbItem) (v : Int)
    (opts : PutOptions) (w : World σ) (e : JsError)
    (hv : item.version = some v)
    (hfail : (PutItem pfx S pollFuel item opts w).1 = Except.error e) :
    (PutItem pfx S pollFuel item opts w).2.1.version = some v := by
  rw [putItem_version_preserved_on_error pfx S pollFuel item opts w e hfail,
    hv]

/-- A server whose `PutItemCommand` always fails with an infrastructure
error. -/
def alwaysFailPutServer : Server Unit :=
  { unitServer with
    putItem := fun _ s =>
      (Except.error { name := "InternalServerError", message := "boom" }, s) }

/-- A versioned record at version 3. -/
def vItem3 : DbItem := { type := thingType, id := "a1", version := some 3 }

/-- Witness for C1: a concrete failing put leaves the version at 3. -/
theorem putItem_failure_restores_version_witness :
    (PutItem none alwaysFailPutServer 0 vItem3
      { CreateTableIfNotExists := false, Class := none }
      { server := (), trace := [] }).2.1.version = some 3 :=
  putItem_failure_restores_version none alwaysFailPutServer 0 vItem3 3
    { CreateTableIfNotExists := false, Class := none }
    { server := (), trace := [] }
    { name := "InternalServerError", message := "boom" }
    rfl (by rw [PutItem]; rfl)

/-- The guard of the conditional write, rephrased the way the claim states
it: absence of the version attribute exactly at the unsaved sentinel,
equality otherwise (the two agree on the data-model domain `-1 ≤ v`). -/
theorem putGuard_eq_claim (v : Int) (hge : INITIAL_VERSION_NUMBER ≤ v) :
    putGuard v =
      if v = INITIAL_VERSION_NUMBER then Cond.attributeNotExists
      else Cond.versionEquals v := by
  unfold putGuard INITIAL_VERSION_NUMBER at *
  by_cases h : v = -1
  · simp [h]
  · have : v > -1 := by omega
    simp [h, this]

/-- C2: for a versioned record (data-model domain: version at least the
`-1` sentinel), `PutItem` issues as its first client call a conditional
put whose guard is `attribute_not_exists(version)` exactly when the
version is the unsaved sentinel and `version = :oldVersion` otherwise,
and whose marshalled item already carries the incremented version. -/
theorem putItem_guard_and_increment (pfx : Option String) (S : Server σ)
    (pollFuel : Nat) (item : DbItem) (v : Int) (opts : PutOptions)
    (w : World σ) (hv : item.version = some v)
    (hge : INITIAL_VERSION_NUMBER ≤ v) :
    ∃ rest, (PutItem pfx S pollFuel item opts w).2.2.trace =
      w.trace ++ DbCall.putItem
        { TableName := GenerateTableName pfx item.type.baseTableName
          Item := { item with version := some (v + 1) }
          Condition := some (if v = INITIAL_VERSION_NUMBER
                             then Cond.attributeNotExists
                             else Cond.versionEquals v) } :: rest := by
  rw [← putGuard_eq_claim v hge]
  rw [PutItem]
  simp only [putPrep_some_ge item v hv hge]
  split
  · rename_i u w2 heq
    have htr := congrArg (fun x => x.2.trace) heq
    simp [sendPutItem] at htr
    exact ⟨[], by rw [← htr]⟩
  · rename_i err w2 heq
    have htr := congrArg (fun x => x.2.trace) heq
    simp [sendPutItem] at htr
    simp only [hv, VersionSet_rollback { item with version := some (v + 1) } v
      (by simp) hge]
    split
    · split
      · exact ⟨[], by rw [← htr]⟩
      · rename_i cls hcls
        split
        · split
          · rename_i e2 w3 heq2
            have hl := ListTables_trace S w2
            rw [heq2] at hl
            simp at hl
            exact ⟨[DbCall.listTables], by rw [hl, ← htr]; simp⟩
          · rename_i tables w3 heq2
            have hl := ListTables_trace S w2
            rw [heq2] at hl
            simp at hl
            split
            · exact ⟨[DbCall.listTables], by rw [hl, ← htr]; simp⟩
            · split
              · rename_i e3 w4 heq3
                obtain ⟨q, hq⟩ := InitializeTable_trace_mono pfx S pollFuel
                  cls (some tables) w3
                rw [heq3] at hq
                simp at hq
                exact ⟨DbCall.listTables :: q,
                  by rw [hq, hl, ← htr]; simp⟩
              · rename_i u4 w4 heq3
                obtain ⟨q, hq⟩ := InitializeTable_trace_mono pfx S pollFuel
                  cls (some tables) w3
                rw [heq3] at hq
                simp at hq
                obtain ⟨r, hr⟩ := (PutItem_noheal_spec pfx S pollFuel
                  { item with version := some v } none w4).2
                exact ⟨DbCall.listTables :: (q ++ r),
                  by rw [hr, hq, hl, ← htr]; simp⟩
        · exact ⟨[], by rw [← htr]⟩
    · exact ⟨[], by rw [← htr]⟩

/-- Witness for C2: a concrete put of a version-3 record issues the
conditional write guarded by `version = 3` carrying version 4. -/
theorem putItem_guard_and_increment_witness :
    ∃ rest, (PutItem none alwaysFailPutServer 0 vItem3
      { CreateTableIfNotExists := false, Class := none }
      { server := (), trace := [] }).2.2.trace =
      [] ++ DbCall.putItem
        { TableName := GenerateTableName none vItem3.type.baseTableName
          Item := { vItem3 with version := some (3 + 1) }
          Condition := some (if (3 : Int) = INITIAL_VERSION_NUMBER
                             then Cond.attributeNotExists
                             else Cond.versionEquals 3) } :: rest :=
  putItem_guard_and_increment none alwaysFailPutServer 0 vItem3 3
    { CreateTableIfNotExists := false, Class := none }
    { server := (), trace := [] } rfl (by decide)

/-! ## C3: empty-string identity/range rejection -/

/-- A record of `thingType` whose identity field holds the empty string. -/
def emptyIdItem : DbItem := { type := thingType, id := "", version := none }

/-- C3 counterexample: contrary to the claim, `PutItem` performs no
empty-string validation at all.  Putting a record whose identity value is
the empty string issues a client call (one `PutItemCommand`) and raises
no `InvalidArgument` error: the call succeeds. -/
theorem putItem_empty_id_reaches_client :
    (PutItem none unitServer 0 emptyIdItem
        { CreateTableIfNotExists := false, Class := none }
        { server := (), trace := [] }).1 = Except.ok true ∧
    (PutItem none unitServer 0 emptyIdItem
        { CreateTableIfNotExists := false, Class := none }
        { server := (), trace := [] }).2.2.trace =
      [DbCall.putItem { TableName := "Things", Item := emptyIdItem, Condition := none }] := by
  rw [PutItem]
  exact ⟨rfl, rfl⟩

/-- C3 (amended): every id/range-taking entry point — `GetItem`,
`GetItems`, `Query`, `Scan` and `DeleteItem` — rejects an empty-string
identity or range value with an `ArgumentError` before any client call
(the world, hence the trace, is unchanged).  `PutItem` is excluded: it
takes a record rather than id/range parameters and performs no
empty-string validation (see the counterexample). -/
theorem entry_points_reject_empty_strings (S : Server σ) (pfx : Option String)
    (pageFuel : Nat) (t : ItemType) (range : Option KeyVal)
    (gopts : GetItemsOptions) (iopts : GetItemOptions) (rv : String)
    (w : World σ) :
    GetItem pfx S pageFuel t (KeyVal.s "") range iopts w =
      (Except.error (ArgumentError "id cannot be an empty string"), w) ∧
    GetItem pfx S pageFuel t (KeyVal.n 1) (some (KeyVal.s "")) iopts w =
      (Except.error (ArgumentError "range cannot be an empty string"), w) ∧
    GetItems pfx S pageFuel t (some (KeyVal.s "")) range gopts w =
      (Except.error (ArgumentError "id cannot be an empty string"), w) ∧
    GetItems pfx S pageFuel t none (some (KeyVal.s "")) gopts w =
      (Except.error (ArgumentError "range cannot be an empty string"), w) ∧
    Query pfx S pageFuel t (KeyVal.s "") range gopts w =
      (Except.error (ArgumentError "id cannot be an empty string"), w) ∧
    Query pfx S pageFuel t (KeyVal.n 1) (some (KeyVal.s "")) gopts w =
      (Except.error (ArgumentError "range cannot be an empty string"), w) ∧
    Scan pfx S pageFuel t (some (KeyVal.s "")) range gopts w =
      (Except.error (ArgumentError "id cannot be an empty string"), w) ∧
    Scan pfx S pageFuel t (some (KeyVal.n 1)) (some (KeyVal.s "")) gopts w =
      (Except.error (ArgumentError "range cannot be an empty string"), w) ∧
    DeleteItem pfx S t (KeyVal.s "") range rv w =
      (Except.error (ArgumentError "id cannot be an empty string"), w) ∧
    DeleteItem pfx S t (KeyVal.n 1) (some (KeyVal.s "")) rv w =
      (Except.error (ArgumentError "range cannot be an empty string"), w) := by
  refine ⟨rfl, rfl, rfl, rfl, rfl, rfl, rfl, rfl, rfl, rfl⟩

/-! ## C6: error identity on PutItem failures -/

/-- A server whose `PutItemCommand` always fails with a conditional-check
(version conflict) fault. -/
def condCheckFailServer : Server Unit :=
  { unitServer with
    putItem := fun _ s =>
      (Except.error { name := "ConditionalCheckFailedException",
                      message := "The conditional request failed" }, s) }

/-- C6 counterexample: with `CreateTableIfNotExists` set but no `Class`,
a conditional-check failure is NOT re-raised: `PutItem` replaces it with
a generic `Cannot infer type` error, so the distinct fault kind is lost. -/
theorem putItem_class_missing_replaces_error :
    (PutItem none condCheckFailServer 0 vItem3
      { CreateTableIfNotExists := true, Class := none }
      { server := (), trace := [] }).1 =
      Except.error (jsError "Cannot infer type to create table. Class is required in the options in order to create the table.") ∧
    (jsError "Cannot infer type to create table. Class is required in the options in order to create the table.").name ≠
      "ConditionalCheckFailedException" := by
  constructor
  · rw [PutItem]
    rfl
  · decide

/-- A server that answers each successive `PutItemCommand` from a queue of
scripted outcomes (success once the queue is exhausted) and everything
else successfully with empty data. -/
def putQueueServer : Server (List (Except JsError Unit)) where
  listTables := fun s => (Except.ok [], s)
  describeTable := fun _ s => (Except.ok none, s)
  createTable := fun i s =>
    (Except.ok (some { TableName := i.TableName, TableStatus := "ACTIVE",
                       GlobalSecondaryIndexes := i.GlobalSecondaryIndexes }), s)
  updateTable := fun _ _ s => (Except.ok (), s)
  updateTimeToLive := fun _ _ s => (Except.ok true, s)
  putItem := fun _ s =>
    match s with
    | [] => (Except.ok (), [])
    | r :: rest => (r, rest)
  getItem := fun _ s => (Except.ok none, s)
  deleteItem := fun _ s => (Except.ok none, s)
  query := fun _ s => (Except.ok { Items := [], LastEvaluatedKey := none }, s)
  scan := fun _ s => (Except.ok { Items := [], LastEvaluatedKey := none }, s)

/-- C6 (amended): a failed put re-raises the original error with its
identity (in particular its fault kind, e.g.
`ConditionalCheckFailedException`) preserved, provided the self-healing
path is not mis-configured: either `CreateTableIfNotExists` is unset, or a
`Class` was supplied and the fault is not table-not-found.  (With
`CreateTableIfNotExists` set and no `Class`, the original error is
replaced — see the counterexample.) -/
theorem putItem_reraises_original_error (pfx : Option String)
    (pollFuel : Nat) (item : DbItem) (opts : PutOptions) (e : JsError)
    (tr : List DbCall)
    (hver : item.version = none ∨
      ∃ v, item.version = some v ∧ INITIAL_VERSION_NUMBER ≤ v)
    (hopts : opts.CreateTableIfNotExists = false ∨
      ((∃ c, opts.Class = some c) ∧ e.name ≠ "ResourceNotFoundException")) :
    (PutItem pfx putQueueServer pollFuel item opts
      { server := [Except.error e], trace := tr }).1 = Except.error e := by
  rw [PutItem]
  have hsend : ∀ params : PutParams,
      sendPutItem putQueueServer params { server := [Except.error e], trace := tr } =
        (Except.error e, { server := [], trace := tr ++ [DbCall.putItem params] }) := by
    intro params
    rfl
  rcases hver with hv | ⟨v, hv, hge⟩
  · simp only [putPrep_none item hv, hsend, hv]
    rcases hopts with hfalse | ⟨⟨c, hcls⟩, hname⟩
    · simp [hfalse]
    · simp [hcls, hname]
  · simp only [putPrep_some_ge item v hv hge, hsend,
      VersionSet_rollback { item with version := some (v + 1) } v (by simp) hge,
      hv]
    rcases hopts with hfalse | ⟨⟨c, hcls⟩, hname⟩
    · simp [hfalse]
    · simp [hcls, hname]

/-- Witness for C6 (amended): a conditional-check failure with
self-healing unset is re-raised unchanged. -/
theorem putItem_reraises_original_error_witness :
    (PutItem none putQueueServer 0 vItem3
      { CreateTableIfNotExists := false, Class := none }
      { server := [Except.error { name := "ConditionalCheckFailedException",
                                  message := "The conditional request failed" }],
        trace := [] }).1 =
      Except.error { name := "ConditionalCheckFailedException",
                     message := "The conditional request failed" } :=
  putItem_reraises_original_error none 0 vItem3
    { CreateTableIfNotExists := false, Class := none }
    { name := "ConditionalCheckFailedException",
      message := "The conditional request failed" } []
    (Or.inr ⟨3, rfl, by decide⟩) (Or.inl rfl)

/-! ## C5: self-healing table creation on PutItem -/

/-- The `ResourceNotFoundException` fault. -/
def rnfError : JsError :=
  { name := "ResourceNotFoundException",
    message := "Requested resource not found" }

/-- Server state for the self-healing scenarios: whether the table has
been created, and a queue of scripted put outcomes. -/
structure HealSt where
  created : Bool
  putResponses : List (Except JsError Unit)
deriving Repr

/-- A stateful fake service for one table named `tn`: `ListTables` and
`DescribeTable` reflect whether the table exists, `CreateTableCommand`
creates it (immediately `ACTIVE`), and `PutItemCommand` follows the
scripted queue (success once exhausted). -/
def healServer (tn : String) : Server HealSt where
  listTables := fun s => (Except.ok (if s.created then [tn] else []), s)
  describeTable := fun name s =>
    (Except.ok (if s.created ∧ name = tn
                then some { TableName := tn, TableStatus := "ACTIVE",
                            GlobalSecondaryIndexes := none }
                else none), s)
  createTable := fun i s =>
    (Except.ok (some { TableName := i.TableName, TableStatus := "ACTIVE",
                       GlobalSecondaryIndexes := i.GlobalSecondaryIndexes }),
     { s with created := true })
  updateTable := fun _ _ s => (Except.ok (), s)
  updateTimeToLive := fun _ _ s => (Except.ok true, s)
  putItem := fun _ s =>
    match s.putResponses with
    | [] => (Except.ok (), s)
    | r :: rest => (r, { s with putResponses := rest })
  getItem := fun _ s => (Except.ok none, s)
  deleteItem := fun _ s => (Except.ok none, s)
  query := fun _ s => (Except.ok { Items := [], LastEvaluatedKey := none }, s)
  scan := fun _ s => (Except.ok { Items := [], LastEvaluatedKey := none }, s)

/-- An unversioned record of `thingType`. -/
def plainItem : DbItem := { type := thingType, id := "a1", version := none }

/-- The put parameters for `plainItem` (no guard). -/
def plainPut : PutParams :=
  { TableName := "Things", Item := plainItem, Condition := none }

/-- C5: self-healing behaviour of `PutItem` with
`CreateTableIfNotExists: true` and a supplied `Class`, on the stateful
fake service.
Scenario A (table listed as existing, put fails table-not-found): the
table listing is consulted, no table is provisioned, and the original
error is re-raised — provisioning happens only on genuine absence.
Scenario B (table absent, both puts fail table-not-found): the listing is
consulted, exactly one create-table call provisions the table, and the
write is retried exactly once — the retry runs with self-healing
disabled, so its failure triggers no second provisioning or retry.
Scenario C (table absent, retry succeeds): same single provisioning and
single retry, overall success. -/
theorem putItem_self_healing :
    (PutItem none (healServer "Things") 0 plainItem
        { CreateTableIfNotExists := true, Class := some thingType }
        { server := { created := true, putResponses := [Except.error rnfError] },
          trace := [] } =
      (Except.error rnfError, plainItem,
        { server := { created := true, putResponses := [] },
          trace := [DbCall.putItem plainPut, DbCall.listTables] })) ∧
    (PutItem none (healServer "Things") 0 plainItem
        { CreateTableIfNotExists := true, Class := some thingType }
        { server := { created := false,
                      putResponses := [Except.error rnfError, Except.error rnfError] },
          trace := [] } =
      (Except.error rnfError, plainItem,
        { server := { created := true, putResponses := [] },
          trace := [DbCall.putItem plainPut, DbCall.listTables,
                    DbCall.listTables,
                    DbCall.createTable (CreateSchema none thingType),
                    DbCall.putItem plainPut] })) ∧
    (PutItem none (healServer "Things") 0 plainItem
        { CreateTableIfNotExists := true, Class := some thingType }
        { server := { created := false, putResponses := [Except.error rnfError] },
          trace := [] } =
      (Except.ok true, plainItem,
        { server := { created := true, putResponses := [] },
          trace := [DbCall.putItem plainPut, DbCall.listTables,
                    DbCall.listTables,
                    DbCall.createTable (CreateSchema none thingType),
                    DbCall.putItem plainPut] })) := by
  refine ⟨?_, ?_, ?_⟩
  · rw [PutItem]
    rfl
  · rw [PutItem]
    simp only [sendPutItem, healServer, putPrep, DbItem.IncrementVersion,
      plainItem, thingType, ListTables, sendListTables, InitializeTable,
      initialTableListing, CreateTableIfNotExists, CreateTable,
      sendCreateTable, pollActive, DescribeTable, sendDescribeTable,
      CreateSchema, GenerateTableName, rnfError, plainPut]
    simp
    rw [PutItem]
    rfl
  · rw [PutItem]
    simp only [sendPutItem, healServer, putPrep, DbItem.IncrementVersion,
      plainItem, thingType, ListTables, sendListTables, InitializeTable,
      initialTableListing, CreateTableIfNotExists, CreateTable,
      sendCreateTable, pollActive, DescribeTable, sendDescribeTable,
      CreateSchema, GenerateTableName, rnfError, plainPut]
    simp
    rw [PutItem]
    rfl

/-! ## C4: CreateTable error handling -/

/-- A server whose `CreateTableCommand` always fails. -/
def createFailServer : Server Unit :=
  { unitServer with
    createTable := fun _ s =>
      (Except.error { name := "InternalServerError",
                      message := "cannot create" }, s) }

/-- A server whose `CreateTableCommand` returns a still-`CREATING` table
and whose `DescribeTableCommand` (the poll) always fails. -/
def pollFailServer : Server Unit :=
  { unitServer with
    createTable := fun i s =>
      (Except.ok (some { TableName := i.TableName, TableStatus := "CREATING",
                         GlobalSecondaryIndexes := none }), s),
    describeTable := fun _ s =>
      (Except.error { name := "InternalServerError",
                      message := "describe failed" }, s) }

/-- The create-table input used in the C4 scenarios. -/
def tInput : CreateTableInput :=
  { TableName := "T", AttributeDefinitions := [("id", "S")],
    GlobalSecondaryIndexes := none }

/-- C4 counterexample: an error raised by the create-table request itself
is NOT raised to the caller — `CreateTable` catches it and returns the
non-error value `undefined` (here `Except.ok none`), converting the fault
into a falsy return. -/
theorem createTable_create_error_swallowed :
    CreateTable createFailServer 0 tInput true none
        { server := (), trace := [] } =
      (Except.ok none, { server := (), trace := [DbCall.createTable tInput] }) := rfl

/-- C4 (amended): the two halves of `CreateTable` error handling differ.
An error from the create request itself is caught, logged, and converted
into an `undefined` (non-error) return value; an error raised by the
DescribeTable polling loop while waiting for `ACTIVE` is re-raised to the
caller with the underlying fault. -/
theorem createTable_error_handling (S : Server σ) (pollFuel : Nat)
    (input : CreateTableInput) (wa : Bool) (ttl : Option String)
    (w : World σ) (e : JsError) (d : TableDescription) (s1 : σ)
    (httl : (match ttl with
             | some t => t.length == 0
             | none => false) = false) :
    (∀ s2, S.createTable input w.server = (Except.error e, s2) →
      (CreateTable S pollFuel input wa ttl w).1 = Except.ok none) ∧
    (S.createTable input w.server = (Except.ok (some d), s1) →
      d.TableStatus ≠ "ACTIVE" →
      (S.describeTable d.TableName s1).1 = Except.error e →
      (CreateTable S (pollFuel + 1) input true ttl w).1 = Except.error e) := by
  constructor
  · intro s2 hc
    unfold CreateTable
    simp only [httl, sendCreateTable, hc]
    rfl
  · intro hc hstat hdesc
    unfold CreateTable
    simp only [httl, sendCreateTable, hc]
    have hcond : (true : Bool) ∧ d.TableStatus ≠ "ACTIVE" := ⟨rfl, hstat⟩
    rw [pollActive]
    simp only [hcond, if_true, sendDescribeTable]
    cases hd2 : S.describeTable d.TableName s1 with
    | mk r s3 =>
      rw [hd2] at hdesc
      simp at hdesc
      simp only [hd2, hdesc]
      simp [hstat]

/-- Witness for C4 (amended): the two concrete servers exhibit the two
behaviours. -/
theorem createTable_error_handling_witness :
    (CreateTable createFailServer 0 tInput true none
      { server := (), trace := [] }).1 = Except.ok none ∧
    (CreateTable pollFailServer 1 tInput true none
      { server := (), trace := [] }).1 =
      Except.error { name := "InternalServerError",
                     message := "describe failed" } :=
  ⟨(createTable_error_handling createFailServer 0 tInput true none
      { server := (), trace := [] }
      { name := "InternalServerError", message := "cannot create" }
      { TableName := "T", TableStatus := "CREATING",
        GlobalSecondaryIndexes := none } () rfl).1 () rfl,
   (createTable_error_handling pollFailServer 0 tInput true none
      { server := (), trace := [] }
      { name := "InternalServerError", message := "describe failed" }
      { TableName := "T", TableStatus := "CREATING",
        GlobalSecondaryIndexes := none } () rfl).2 rfl (by decide) rfl⟩

/-! ## C9: InitializeTable idempotence -/

/-- A stateful fake service whose state is the list of existing table
names: `ListTables` returns it, `CreateTableCommand` prepends the new
name and reports the table immediately `ACTIVE`. -/
def tableListServer : Server (List String) where
  listTables := fun s => (Except.ok s, s)
  describeTable := fun name s =>
    (Except.ok (if s.contains name
                then some { TableName := name, TableStatus := "ACTIVE",
                            GlobalSecondaryIndexes := none }
                else none), s)
  createTable := fun i s =>
    (Except.ok (some { TableName := i.TableName, TableStatus := "ACTIVE",
                       GlobalSecondaryIndexes := i.GlobalSecondaryIndexes }),
     i.TableName :: s)
  updateTable := fun _ _ s => (Except.ok (), s)
  updateTimeToLive := fun _ _ s => (Except.ok true, s)
  putItem := fun _ s => (Except.ok (), s)
  getItem := fun _ s => (Except.ok none, s)
  deleteItem := fun _ s => (Except.ok none, s)
  query := fun _ s => (Except.ok { Items := [], LastEvaluatedKey := none }, s)
  scan := fun _ s => (Except.ok { Items := [], LastEvaluatedKey := none }, s)

/-- The number of create-table calls in a trace. -/
def countCreateCalls (tr : List DbCall) : Nat :=
  (tr.filter fun c => match c with
    | DbCall.createTable _ => true
    | _ => false).length

/-- A fresh `InitializeTable` run on a state where the generated table
name is absent from the listing performs exactly one create-table call
(plus two listings and, for a TTL-bearing type, one enable-TTL call). -/
theorem InitializeTable_creates_fresh (pfx : Option String) (t : ItemType)
    (ts : List String) (tr : List DbCall)
    (httl : (match t.ttlFieldName with
             | some a => a.length == 0
             | none => false) = false)
    (habs : ts.contains (GenerateTableName pfx t.baseTableName) = false) :
    ∃ extra,
      InitializeTable pfx tableListServer 0 t none
          { server := ts, trace := tr } =
        (Except.ok (),
         { server := GenerateTableName pfx t.baseTableName :: ts,
           trace := tr ++ [DbCall.listTables, DbCall.listTables,
             DbCall.createTable (CreateSchema pfx t)] ++ extra }) ∧
      countCreateCalls extra = 0 := by
  cases htt : t.ttlFieldName with
  | none =>
    refine ⟨[], ?_, rfl⟩
    simp only [InitializeTable, initialTableListing, ListTables,
      sendListTables, tableListServer, CreateTableIfNotExists, CreateTable,
      sendCreateTable, pollActive, sendUpdateTimeToLive, CreateSchema, habs,
      httl, htt]
    simp [CreateSchema]
  | some a =>
    rw [htt] at httl
    simp only [beq_iff_eq] at httl
    refine ⟨[DbCall.updateTimeToLive (GenerateTableName pfx t.baseTableName) a],
      ?_, rfl⟩
    simp only [InitializeTable, initialTableListing, ListTables,
      sendListTables, tableListServer, CreateTableIfNotExists, CreateTable,
      sendCreateTable, pollActive, sendUpdateTimeToLive, CreateSchema, habs,
      httl, htt]
    simp [CreateSchema, httl]

/-- An `InitializeTable` run on a state where the generated table name is
already listed performs no mutating call: one listing, then return. -/
theorem InitializeTable_existing (pfx : Option String) (t : ItemType)
    (ts : List String) (tr : List DbCall)
    (hpres : ts.contains (GenerateTableName pfx t.baseTableName) = true) :
    InitializeTable pfx tableListServer 0 t none
        { server := ts, trace := tr } =
      (Except.ok (), { server := ts, trace := tr ++ [DbCall.listTables] }) := by
  simp only [InitializeTable, initialTableListing, ListTables,
    sendListTables, tableListServer, hpres]
  simp

/-- C9: `InitializeTable` is idempotent.  Starting from a state where the
generated table name is absent, two sequential runs for the same type
both succeed and issue exactly one create-table call between them,
because the second run finds the name in the `ListTables` result and
performs no mutating call. -/
theorem initializeTable_idempotent (pfx : Option String) (t : ItemType)
    (ts : List String) (tr : List DbCall)
    (httl : (match t.ttlFieldName with
             | some a => a.length == 0
             | none => false) = false)
    (habs : ts.contains (GenerateTableName pfx t.baseTableName) = false) :
    (InitializeTable pfx tableListServer 0 t none
        { server := ts, trace := tr }).1 = Except.ok () ∧
    (InitializeTable pfx tableListServer 0 t none
        (InitializeTable pfx tableListServer 0 t none
          { server := ts, trace := tr }).2).1 = Except.ok () ∧
    countCreateCalls
        (InitializeTable pfx tableListServer 0 t none
          (InitializeTable pfx tableListServer 0 t none
            { server := ts, trace := tr }).2).2.trace =
      countCreateCalls tr + 1 := by
  obtain ⟨extra, heq, hext⟩ :=
    InitializeTable_creates_fresh pfx t ts tr httl habs
  rw [heq]
  rw [InitializeTable_existing pfx t
    (GenerateTableName pfx t.baseTableName :: ts) _ (by simp)]
  refine ⟨rfl, rfl, ?_⟩
  simp only [countCreateCalls, List.filter_append, List.length_append] at hext ⊢
  simp [hext]

/-- Witness for C9: concrete two-run scenario with a TTL-free type and an
empty initial table list. -/
theorem initializeTable_idempotent_witness :
    (InitializeTable none tableListServer 0 thingType none
        { server := [], trace := [] }).1 = Except.ok () ∧
    (InitializeTable none tableListServer 0 thingType none
        (InitializeTable none tableListServer 0 thingType none
          { server := [], trace := [] }).2).1 = Except.ok () ∧
    countCreateCalls
        (InitializeTable none tableListServer 0 thingType none
          (InitializeTable none tableListServer 0 thingType none
            { server := [], trace := [] }).2).2.trace =
      countCreateCalls [] + 1 :=
  initializeTable_idempotent none thingType [] [] rfl rfl

/-! ## C7: UpdateTable index reconciliation -/

/-- Effect of one GSI mutation on the set of index names of a table. -/
def applyGsiUpdate (u : GsiUpdate) (gsis : List String) : List String :=
  match u with
  | GsiUpdate.del n => gsis.filter (fun g => g != n)
  | GsiUpdate.create n _ => gsis ++ [n]

/-- A stateful fake service holding a single table description:
`DescribeTableCommand` returns the current state and
`UpdateTableCommand` applies its GSI mutation to it. -/
def idxServer : Server TableDescription where
  listTables := fun s => (Except.ok [s.TableName], s)
  describeTable := fun name s =>
    (Except.ok (if s.TableName = name then some s else none), s)
  createTable := fun _ s => (Except.ok (some s), s)
  updateTable := fun _ u s =>
    (Except.ok (), { s with GlobalSecondaryIndexes := some (applyGsiUpdate u (s.GlobalSecondaryIndexes.getD [])) })
  updateTimeToLive := fun _ _ s => (Except.ok true, s)
  putItem := fun _ s => (Except.ok (), s)
  getItem := fun _ s => (Except.ok none, s)
  deleteItem := fun _ s => (Except.ok none, s)
  query := fun _ s => (Except.ok { Items := [], LastEvaluatedKey := none }, s)
  scan := fun _ s => (Except.ok { Items := [], LastEvaluatedKey := none }, s)

/-- One `UpdateTableCommand` on the index server: mutate the GSI list and
log the call. -/
theorem sendUpdateTable_idx (bn2 st bn : String) (u : GsiUpdate)
    (cur : List String) (tr : List DbCall) :
    sendUpdateTable idxServer bn u
        { server := { TableName := bn2, TableStatus := st,
                      GlobalSecondaryIndexes := some cur }, trace := tr } =
      (Except.ok (),
       { server := { TableName := bn2, TableStatus := st,
                     GlobalSecondaryIndexes := some (applyGsiUpdate u cur) },
         trace := tr ++ [DbCall.updateTable bn u] }) := rfl

/-- The delete loop on the index server: one delete call per iterated
name absent from the declared indexes, applied in order to the state. -/
theorem updateTableDeleteLoop_idx (bn st : String) (decl : List String) :
    ∀ (iter cur : List String) (tr : List DbCall),
      updateTableDeleteLoop idxServer bn (some decl) iter
        { server := { TableName := bn, TableStatus := st,
                      GlobalSecondaryIndexes := some cur }, trace := tr } =
      (Except.ok (),
       { server := { TableName := bn, TableStatus := st,
                     GlobalSecondaryIndexes :=
                       some (iter.foldl
                         (fun acc g => if decl.contains g then acc
                                       else acc.filter (fun x => x != g)) cur) },
         trace := tr ++ (iter.filter (fun g => !(decl.contains g))).map
           (fun g => DbCall.updateTable bn (GsiUpdate.del g)) }) := by
  intro iter
  induction iter with
  | nil =>
    intro cur tr
    simp [updateTableDeleteLoop]
  | cons g rest ih =>
    intro cur tr
    by_cases hg : g ∈ decl
    · have hgc : decl.contains g = true := by simpa using hg
      simp [updateTableDeleteLoop, hg, hgc, ih]
    · have hgc : decl.contains g = false := by simpa using hg
      simp [updateTableDeleteLoop, hg, hgc, ih, sendUpdateTable_idx,
        applyGsiUpdate]

/-- The create loop on the index server: one create call (carrying the
attribute definitions) per iterated name absent from the live table,
appended in order to the state. -/
theorem updateTableCreateLoop_idx (bn st : String)
    (ad : List (String × String)) (tg : Option (List String)) :
    ∀ (iter cur : List String) (tr : List DbCall),
      updateTableCreateLoop idxServer bn ad tg iter
        { server := { TableName := bn, TableStatus := st,
                      GlobalSecondaryIndexes := some cur }, trace := tr } =
      (Except.ok (),
       { server := { TableName := bn, TableStatus := st,
                     GlobalSecondaryIndexes :=
                       some (cur ++ iter.filter
                         (fun g => !((tg.getD []).contains g))) },
         trace := tr ++ (iter.filter
             (fun g => !((tg.getD []).contains g))).map
           (fun g => DbCall.updateTable bn (GsiUpdate.create g ad)) }) := by
  intro iter
  induction iter with
  | nil =>
    intro cur tr
    simp [updateTableCreateLoop]
  | cons g rest ih =>
    intro cur tr
    by_cases hg : g ∈ tg.getD []
    · have hgc : (tg.getD []).contains g = true := by simpa using hg
      simp [updateTableCreateLoop, hg, hgc, ih]
    · have hgc : (tg.getD []).contains g = false := by simpa using hg
      simp [updateTableCreateLoop, hg, hgc, ih, sendUpdateTable_idx,
        applyGsiUpdate]

/-- Evaluation of the delete loop's fold: an index name survives iff it
is not among the iterated names slated for deletion. -/
theorem deleteFold_eq (decl : List String) :
    ∀ (iter cur : List String),
      iter.foldl (fun acc g => if decl.contains g then acc
                               else acc.filter (fun x => x != g)) cur =
      cur.filter (fun x => !(iter.contains x) || decl.contains x) := by
  intro iter
  induction iter with
  | nil =>
    intro cur
    simp
  | cons g rest ih =>
    intro cur
    by_cases hg : g ∈ decl
    · have hgc : decl.contains g = true := by simpa using hg
      rw [List.foldl_cons, if_pos hgc, ih]
      refine List.filter_congr ?_
      intro x hx
      by_cases hxg : x = g
      · simp [hxg, hg]
      · simp [hxg]
    · have hgc : ¬ (decl.contains g = true) := by simpa using hg
      rw [List.foldl_cons, if_neg hgc, ih, List.filter_filter]
      refine List.filter_congr ?_
      intro x hx
      by_cases hxg : x = g
      · simp [hxg, hg]
      · simp [hxg]

/-- Describing the (single) table on the index server returns the current
state. -/
theorem DescribeTable_idx (bn2 st : String) (gs : Option (List String))
    (tr : List DbCall) :
    DescribeTable idxServer bn2
        { server := { TableName := bn2, TableStatus := st,
                      GlobalSecondaryIndexes := gs }, trace := tr } =
      (Except.ok (some { TableName := bn2, TableStatus := st,
                         GlobalSecondaryIndexes := gs }),
       { server := { TableName := bn2, TableStatus := st,
                     GlobalSecondaryIndexes := gs },
         trace := tr ++ [DbCall.describeTable bn2] }) := by
  unfold DescribeTable sendDescribeTable idxServer
  simp

/-- The index name list left after reconciliation: live indexes that are
declared, followed by declared indexes that were not live. -/
def reconciledGsis (live decl : List String) : List String :=
  live.filter (fun g => decl.contains g) ++
    decl.filter (fun g => !(live.contains g))

/-- C7: `UpdateTable` reconciles global secondary indexes by `IndexName`
only: each live index not declared by the item gets exactly one
delete-index update call, each declared index not live gets exactly one
create-index update call carrying the item's attribute definitions, every
mutation is a separate call, and a fresh post-reconciliation description
is returned whose index name list is `reconciledGsis live decl`.  In
particular, live `{A, B}` against declared `{B, C}` yields one delete
(A), one create (C) and the final index name list `[B, C]`. -/
theorem updateTable_reconciles_by_name (bn idf st : String)
    (live decl : List String) (ad : List (String × String))
    (tr : List DbCall) :
    (UpdateTable none idxServer
        { baseTableName := bn, idFieldName := idf, rangeFieldName := none,
          ttlFieldName := none, gsis := some decl,
          attributeDefinitions := ad }
        { server := { TableName := bn, TableStatus := st,
                      GlobalSecondaryIndexes := some live },
          trace := tr } =
      (Except.ok (some { TableName := bn, TableStatus := st,
                         GlobalSecondaryIndexes := some (reconciledGsis live decl) }),
       { server := { TableName := bn, TableStatus := st,
                     GlobalSecondaryIndexes := some (reconciledGsis live decl) },
         trace := tr ++ [DbCall.describeTable bn] ++
           (live.filter (fun g => !(decl.contains g))).map
             (fun g => DbCall.updateTable bn (GsiUpdate.del g)) ++
           (decl.filter (fun g => !(live.contains g))).map
             (fun g => DbCall.updateTable bn (GsiUpdate.create g ad)) ++
           [DbCall.describeTable bn] })) ∧
    (UpdateTable none idxServer
        { baseTableName := "T", idFieldName := "id", rangeFieldName := none,
          ttlFieldName := none, gsis := some ["B", "C"],
          attributeDefinitions := [("id", "S")] }
        { server := { TableName := "T", TableStatus := "ACTIVE",
                      GlobalSecondaryIndexes := some ["A", "B"] },
          trace := [] } =
      (Except.ok (some { TableName := "T", TableStatus := "ACTIVE",
                         GlobalSecondaryIndexes := some ["B", "C"] }),
       { server := { TableName := "T", TableStatus := "ACTIVE",
                     GlobalSecondaryIndexes := some ["B", "C"] },
         trace := [DbCall.describeTable "T",
                   DbCall.updateTable "T" (GsiUpdate.del "A"),
                   DbCall.updateTable "T" (GsiUpdate.create "C" [("id", "S")]),
                   DbCall.describeTable "T"] })) := by
  constructor
  · have hfilt : live.filter (fun x => !(live.contains x) || decl.contains x) =
        live.filter (fun g => decl.contains g) := by
      refine List.filter_congr ?_
      intro x hx
      simp [hx]
    unfold UpdateTable
    simp only [GenerateTableName, Option.getD_some, DescribeTable_idx,
      updateTableDeleteLoop_idx, deleteFold_eq, hfilt,
      updateTableCreateLoop_idx]
    simp [reconciledGsis]
  · rfl

/-! ## C10: GetItem with an IndexName delegates to GetItems -/

/-- The query issued by the concrete delegated `GetItem` below. -/
def ixQueryParams : QueryParams :=
  { TableName := "Things", IndexName := some "ix",
    partitionKey := ("id", KeyVal.s "a1"), rangeKey := none,
    FilterExpression := none, Limit := none, ExclusiveStartKey := none }

/-- C10: when the options carry an `IndexName`, `GetItem` delegates to
`GetItems` (forwarding only the index/consistency options — not
`Required` or `IgnoreTableNotFound`) and returns the first element of the
result, or `undefined` when the list is empty.  The second conjunct shows
the consequence on a concrete empty table: the result is `undefined` with
no not-found error raised, even though `Required` was left at its default
(`true`). -/
theorem getItem_index_delegates (S : Server σ) (pfx : Option String)
    (pageFuel : Nat) (t : ItemType) (id : KeyVal) (range : Option KeyVal)
    (opts : GetItemOptions) (ix : String) (w : World σ)
    (hid : id.isEmptyString = false)
    (hrange : KeyVal.isEmptyStringOpt range = false)
    (hix : opts.IndexName = some ix) :
    (GetItem pfx S pageFuel t id range opts w =
      (let r := GetItems pfx S pageFuel t (some id) range
         { IndexName := some ix
           IndexPartitionKeyFieldName := opts.IndexPartitionKeyFieldName
           IndexRangeFieldName := opts.IndexRangeFieldName
           ConsistentRead := opts.ConsistentRead } w
       (r.1.map (fun items => items.head?), r.2))) ∧
    (GetItem none unitServer 1 thingType (KeyVal.s "a1") none
        { IndexName := some "ix" } { server := (), trace := [] } =
      (Except.ok none,
       { server := (), trace := [DbCall.query ixQueryParams] })) := by
  constructor
  · unfold GetItem
    simp only [hid, hrange, hix, Bool.false_eq_true, if_false]
    cases h : GetItems pfx S pageFuel t (some id) range
        { IndexName := some ix,
          IndexPartitionKeyFieldName := opts.IndexPartitionKeyFieldName,
          IndexRangeFieldName := opts.IndexRangeFieldName,
          ConsistentRead := opts.ConsistentRead } w with
    | mk r w2 =>
      simp only [h]
      cases r <;> rfl
  · rfl

/-- Witness for C10: the delegation equality at a concrete input. -/
theorem getItem_index_delegates_witness :
    GetItem none unitServer 1 thingType (KeyVal.s "a1") none
        { IndexName := some "ix" } { server := (), trace := [] } =
      (let r := GetItems none unitServer 1 thingType (some (KeyVal.s "a1")) none
         { IndexName := some "ix", IndexPartitionKeyFieldName := none,
           IndexRangeFieldName := none, ConsistentRead := none }
         { server := (), trace := [] }
       (r.1.map (fun items => items.head?), r.2)) :=
  (getItem_index_delegates unitServer none 1 thingType (KeyVal.s "a1") none
    { IndexName := some "ix" } "ix" { server := (), trace := [] }
    rfl rfl rfl).1

/-! ## C8: pagination limit behaviour of the Scan/Query page loops -/

/-- A service whose `Query`/`Scan` responses follow a script of pages
(state = the remaining script); once the script is exhausted it serves an
empty final page with no cursor. -/
def pageScriptServer : Server (List Page) where
  listTables := fun s => (Except.ok [], s)
  describeTable := fun _ s => (Except.ok none, s)
  createTable := fun _ s => (Except.ok none, s)
  updateTable := fun _ _ s => (Except.ok (), s)
  updateTimeToLive := fun _ _ s => (Except.ok true, s)
  putItem := fun _ s => (Except.ok (), s)
  getItem := fun _ s => (Except.ok none, s)
  deleteItem := fun _ s => (Except.ok none, s)
  query := fun _ s =>
    match s with
    | [] => (Except.ok { Items := [], LastEvaluatedKey := none }, [])
    | p :: rest => (Except.ok p, rest)
  scan := fun _ s =>
    match s with
    | [] => (Except.ok { Items := [], LastEvaluatedKey := none }, [])
    | p :: rest => (Except.ok p, rest)

/-- The cursor discipline of a paginated dataset: every page carries a
continuation cursor except the last, which carries none. -/
def ChainPages : List Page → Prop
  | [] => True
  | p :: rest =>
    (match rest with
     | [] => p.LastEvaluatedKey = none
     | _ :: _ => p.LastEvaluatedKey.isSome = true) ∧ ChainPages rest

/-- All items of a list of pages, in order. -/
def pageItems (pages : List Page) : List DbItem :=
  (pages.map Page.Items).flatten

theorem pageItems_nil : pageItems [] = [] := rfl

theorem pageItems_cons (p : Page) (l : List Page) :
    pageItems (p :: l) = p.Items ++ pageItems l := rfl

/-- The number of scan-page requests in a trace. -/
def countScanCalls (tr : List DbCall) : Nat :=
  (tr.filter fun c => match c with
    | DbCall.scan _ => true
    | _ => false).length

/-- The number of query-page requests in a trace. -/
def countQueryCalls (tr : List DbCall) : Nat :=
  (tr.filter fun c => match c with
    | DbCall.query _ => true
    | _ => false).length

theorem countScanCalls_append (a b : List DbCall) :
    countScanCalls (a ++ b) = countScanCalls a + countScanCalls b := by
  simp [countScanCalls, List.filter_append]

theorem countQueryCalls_append (a b : List DbCall) :
    countQueryCalls (a ++ b) = countQueryCalls a + countQueryCalls b := by
  simp [countQueryCalls, List.filter_append]

theorem sendScan_script_cons (params : ScanParams) (p : Page)
    (rest : List Page) (tr : List DbCall) :
    sendScan pageScriptServer params { server := p :: rest, trace := tr } =
      (Except.ok p, { server := rest, trace := tr ++ [DbCall.scan params] }) := rfl

theorem sendQuery_script_cons (params : QueryParams) (p : Page)
    (rest : List Page) (tr : List DbCall) :
    sendQuery pageScriptServer params { server := p :: rest, trace := tr } =
      (Except.ok p, { server := rest, trace := tr ++ [DbCall.query params] }) := rfl

/-- Full characterization of the `Scan` page loop over a scripted
dataset obeying the cursor discipline: the loop consumes some number `k`
of whole pages (one request each), stops exactly when the final page has
no cursor (`k = pages.length`) or the accumulated count has reached the
limit, every intermediate count is below the limit (the check runs
between pages), and — given a uniform page-size bound — the result
overshoots the limit by at most one page. -/
theorem scanLoop_script_spec (N : Nat) (ign : Bool) :
    ∀ (pages : List Page), pages ≠ [] → ChainPages pages →
    ∀ (fuel : Nat), pages.length < fuel →
    ∀ (params : ScanParams) (acc : List DbItem) (tr : List DbCall),
    acc.length ≤ N →
    ∃ k, 1 ≤ k ∧ k ≤ pages.length ∧
      (scanLoop pageScriptServer ign (some N) fuel params acc
          { server := pages, trace := tr }).1 =
        Except.ok (acc ++ pageItems (pages.take k)) ∧
      countScanCalls (scanLoop pageScriptServer ign (some N) fuel params acc
          { server := pages, trace := tr }).2.trace =
        countScanCalls tr + k ∧
      (k = pages.length ∨
        N ≤ acc.length + (pageItems (pages.take k)).length) ∧
      (∀ i, 1 ≤ i → i < k →
        acc.length + (pageItems (pages.take i)).length < N) ∧
      (∀ P, (∀ p ∈ pages, p.Items.length ≤ P) →
        acc.length + (pageItems (pages.take k)).length ≤ N + P) := by
  intro pages
  induction pages with
  | nil => intro h; exact absurd rfl h
  | cons p rest ih =>
    intro _ hchain fuel hfuel params acc tr hacc
    obtain ⟨hcur, hchainrest⟩ := hchain
    cases fuel with
    | zero => simp at hfuel
    | succ f =>
      simp only [scanLoop, sendScan_script_cons]
      cases rest with
      | nil =>
        have hcurn : p.LastEvaluatedKey = none := hcur
        refine ⟨1, le_refl 1, by simp, ?_, ?_, Or.inl (by simp), ?_, ?_⟩
        · simp [hcurn, pageItems_cons, pageItems_nil]
        · simp [hcurn, countScanCalls, List.filter_append]
        · intro i h1 hi
          omega
        · intro P hP
          have hp : p.Items.length ≤ P := hP p (List.mem_cons_self p [])
          simp [pageItems_cons, pageItems_nil]
          omega
      | cons q rest2 =>
        have hcurs : p.LastEvaluatedKey.isSome = true := hcur
        by_cases hlim : acc.length + p.Items.length < N
        · split
          · obtain ⟨k, hk1, hk2, hres, hcount, hstop, hbelow, hbound⟩ :=
              ih (by simp) hchainrest f (by simp at hfuel ⊢; omega)
                { params with ExclusiveStartKey := p.LastEvaluatedKey }
                (acc ++ p.Items) (tr ++ [DbCall.scan params])
                (by simp; omega)
            refine ⟨k + 1, by omega, by simp at hk2 ⊢; omega, ?_, ?_, ?_, ?_, ?_⟩
            · rw [hres]
              simp [pageItems_cons]
            · rw [hcount, countScanCalls_append]
              have h1 : countScanCalls [DbCall.scan params] = 1 := rfl
              omega
            · rcases hstop with h | h
              · exact Or.inl (by simp [h])
              · refine Or.inr ?_
                simp only [List.take_succ_cons, pageItems_cons,
                  List.length_append] at h ⊢
                omega
            · intro i h1 hi
              cases i with
              | zero => omega
              | succ j =>
                cases j with
                | zero =>
                  simp only [List.take_succ_cons, List.take_zero,
                    pageItems_cons, pageItems_nil, List.length_append,
                    List.length_nil]
                  omega
                | succ j2 =>
                  have hb := hbelow (j2 + 1) (by omega) (by omega)
                  simp only [List.take_succ_cons, pageItems_cons,
                    List.length_append] at hb ⊢
                  omega
            · intro P hP
              have hb := hbound P (fun x hx => hP x (List.mem_cons_of_mem p hx))
              simp only [List.take_succ_cons, pageItems_cons,
                List.length_append] at hb ⊢
              omega
          · rename_i hcond
            exfalso
            simp [hcurs, List.length_append, hlim] at hcond
        · split
          · rename_i hcond
            exfalso
            simp [hcurs, List.length_append, hlim] at hcond
          · refine ⟨1, le_refl 1, by simp, ?_, ?_, ?_, ?_, ?_⟩
            · simp [pageItems_cons, pageItems_nil]
            · simp [countScanCalls, List.filter_append]
            · refine Or.inr ?_
              simp [pageItems_cons, pageItems_nil]
              omega
            · intro i h1 hi
              omega
            · intro P hP
              have hp : p.Items.length ≤ P := hP p (List.mem_cons_self p _)
              simp [pageItems_cons, pageItems_nil]
              omega

/-- Full characterization of the `Query` page loop over a scripted
dataset; identical control flow to the `Scan` loop. -/
theorem queryLoop_script_spec (N : Nat) (ign : Bool) :
    ∀ (pages : List Page), pages ≠ [] → ChainPages pages →
    ∀ (fuel : Nat), pages.length < fuel →
    ∀ (params : QueryParams) (acc : List DbItem) (tr : List DbCall),
    acc.length ≤ N →
    ∃ k, 1 ≤ k ∧ k ≤ pages.length ∧
      (queryLoop pageScriptServer ign (some N) fuel params acc
          { server := pages, trace := tr }).1 =
        Except.ok (acc ++ pageItems (pages.take k)) ∧
      countQueryCalls (queryLoop pageScriptServer ign (some N) fuel params acc
          { server := pages, trace := tr }).2.trace =
        countQueryCalls tr + k ∧
      (k = pages.length ∨
        N ≤ acc.length + (pageItems (pages.take k)).length) ∧
      (∀ i, 1 ≤ i → i < k →
        acc.length + (pageItems (pages.take i)).length < N) ∧
      (∀ P, (∀ p ∈ pages, p.Items.length ≤ P) →
        acc.length + (pageItems (pages.take k)).length ≤ N + P) := by
  intro pages
  induction pages with
  | nil => intro h; exact absurd rfl h
  | cons p rest ih =>
    intro _ hchain fuel hfuel params acc tr hacc
    obtain ⟨hcur, hchainrest⟩ := hchain
    cases fuel with
    | zero => simp at hfuel
    | succ f =>
      simp only [queryLoop, sendQuery_script_cons]
      cases rest with
      | nil =>
        have hcurn : p.LastEvaluatedKey = none := hcur
        refine ⟨1, le_refl 1, by simp, ?_, ?_, Or.inl (by simp), ?_, ?_⟩
        · simp [hcurn, pageItems_cons, pageItems_nil]
        · simp [hcurn, countQueryCalls, List.filter_append]
        · intro i h1 hi
          omega
        · intro P hP
          have hp : p.Items.length ≤ P := hP p (List.mem_cons_self p [])
          simp [pageItems_cons, pageItems_nil]
          omega
      | cons q rest2 =>
        have hcurs : p.LastEvaluatedKey.isSome = true := hcur
        by_cases hlim : acc.length + p.Items.length < N
        · split
          · obtain ⟨k, hk1, hk2, hres, hcount, hstop, hbelow, hbound⟩ :=
              ih (by simp) hchainrest f (by simp at hfuel ⊢; omega)
                { params with ExclusiveStartKey := p.LastEvaluatedKey }
                (acc ++ p.Items) (tr ++ [DbCall.query params])
                (by simp; omega)
            refine ⟨k + 1, by omega, by simp at hk2 ⊢; omega, ?_, ?_, ?_, ?_, ?_⟩
            · rw [hres]
              simp [pageItems_cons]
            · rw [hcount, countQueryCalls_append]
              have h1 : countQueryCalls [DbCall.query params] = 1 := rfl
              omega
            · rcases hstop with h | h
              · exact Or.inl (by simp [h])
              · refine Or.inr ?_
                simp only [List.take_succ_cons, pageItems_cons,
                  List.length_append] at h ⊢
                omega
            · intro i h1 hi
              cases i with
              | zero => omega
              | succ j =>
                cases j with
                | zero =>
                  simp only [List.take_succ_cons, List.take_zero,
                    pageItems_cons, pageItems_nil, List.length_append,
                    List.length_nil]
                  omega
                | succ j2 =>
                  have hb := hbelow (j2 + 1) (by omega) (by omega)
                  simp only [List.take_succ_cons, pageItems_cons,
                    List.length_append] at hb ⊢
                  omega
            · intro P hP
              have hb := hbound P (fun x hx => hP x (List.mem_cons_of_mem p hx))
              simp only [List.take_succ_cons, pageItems_cons,
                List.length_append] at hb ⊢
              omega
          · rename_i hcond
            exfalso
            simp [hcurs, List.length_append, hlim] at hcond
        · split
          · rename_i hcond
            exfalso
            simp [hcurs, List.length_append, hlim] at hcond
          · refine ⟨1, le_refl 1, by simp, ?_, ?_, ?_, ?_, ?_⟩
            · simp [pageItems_cons, pageItems_nil]
            · simp [countQueryCalls, List.filter_append]
            · refine Or.inr ?_
              simp [pageItems_cons, pageItems_nil]
              omega
            · intro i h1 hi
              omega
            · intro P hP
              have hp : p.Items.length ≤ P := hP p (List.mem_cons_self p _)
              simp [pageItems_cons, pageItems_nil]
              omega

/-- C8: for a paginated read (`Scan` or `Query` page loop) with
`Limit = N` over a scripted dataset of `M > N` matching items obeying the
cursor discipline, the loop consumes whole pages, one request each;
it stops issuing further page requests exactly when a page returns no
continuation cursor (`k = pages.length`) or the accumulated count has
reached `N`, with every intermediate count strictly below `N` (the check
runs between pages); consequently at least `N` items are returned, and
with page sizes bounded by `P` the result exceeds `N` by at most one
page's worth (`≤ N + P`), since the final page is not trimmed. -/
theorem paginated_read_limit (N P : Nat) (pages : List Page) (ign : Bool)
    (sp : ScanParams) (qp : QueryParams) (tr : List DbCall)
    (hne : pages ≠ []) (hchain : ChainPages pages)
    (hM : N < (pageItems pages).length)
    (hP : ∀ p ∈ pages, p.Items.length ≤ P) :
    (∃ k items,
      (scanLoop pageScriptServer ign (some N) (pages.length + 1) sp []
          { server := pages, trace := tr }).1 = Except.ok items ∧
      items = pageItems (pages.take k) ∧
      N ≤ items.length ∧
      items.length ≤ N + P ∧
      countScanCalls (scanLoop pageScriptServer ign (some N)
          (pages.length + 1) sp []
          { server := pages, trace := tr }).2.trace =
        countScanCalls tr + k ∧
      1 ≤ k ∧ k ≤ pages.length ∧
      (k = pages.length ∨ N ≤ (pageItems (pages.take k)).length) ∧
      (∀ i, 1 ≤ i → i < k → (pageItems (pages.take i)).length < N)) ∧
    (∃ k items,
      (queryLoop pageScriptServer ign (some N) (pages.length + 1) qp []
          { server := pages, trace := tr }).1 = Except.ok items ∧
      items = pageItems (pages.take k) ∧
      N ≤ items.length ∧
      items.length ≤ N + P ∧
      countQueryCalls (queryLoop pageScriptServer ign (some N)
          (pages.length + 1) qp []
          { server := pages, trace := tr }).2.trace =
        countQueryCalls tr + k ∧
      1 ≤ k ∧ k ≤ pages.length ∧
      (k = pages.length ∨ N ≤ (pageItems (pages.take k)).length) ∧
      (∀ i, 1 ≤ i → i < k → (pageItems (pages.take i)).length < N)) := by
  constructor
  · obtain ⟨k, hk1, hk2, hres, hcount, hstop, hbelow, hbound⟩ :=
      scanLoop_script_spec N ign pages hne hchain (pages.length + 1)
        (by omega) sp [] tr (by simp)
    refine ⟨k, pageItems (pages.take k), ?_, rfl, ?_, ?_, hcount, hk1, hk2,
      ?_, ?_⟩
    · simpa using hres
    · rcases hstop with h | h
      · subst h
        rw [List.take_length]
        omega
      · simpa using h
    · have := hbound P hP
      simpa using this
    · rcases hstop with h | h
      · exact Or.inl h
      · exact Or.inr (by simpa using h)
    · intro i h1 hi
      have := hbelow i h1 hi
      simpa using this
  · obtain ⟨k, hk1, hk2, hres, hcount, hstop, hbelow, hbound⟩ :=
      queryLoop_script_spec N ign pages hne hchain (pages.length + 1)
        (by omega) qp [] tr (by simp)
    refine ⟨k, pageItems (pages.take k), ?_, rfl, ?_, ?_, hcount, hk1, hk2,
      ?_, ?_⟩
    · simpa using hres
    · rcases hstop with h | h
      · subst h
        rw [List.take_length]
        omega
      · simpa using h
    · have := hbound P hP
      simpa using this
    · rcases hstop with h | h
      · exact Or.inl h
      · exact Or.inr (by simpa using h)
    · intro i h1 hi
      have := hbelow i h1 hi
      simpa using this

/-- The concrete two-page dataset used in the C8 witness: 2 + 2 items,
cursor on the first page only. -/
def c8pages : List Page :=
  [{ Items := [plainItem, plainItem], LastEvaluatedKey := some "c" },
   { Items := [plainItem, plainItem], LastEvaluatedKey := none }]

/-- Concrete scan parameters for the C8 witness. -/
def c8sp : ScanParams :=
  { TableName := "Things", IndexName := none, partitionFilter := none,
    rangeFilter := none, FilterExpression := none, Limit := some 3,
    ExclusiveStartKey := none }

/-- Concrete query parameters for the C8 witness. -/
def c8qp : QueryParams :=
  { TableName := "Things", IndexName := none,
    partitionKey := ("id", KeyVal.s "a"), rangeKey := none,
    FilterExpression := none, Limit := some 3, ExclusiveStartKey := none }

/-- Witness for C8: `Limit = 3` over a 4-item dataset split 2 + 2. -/
theorem paginated_read_limit_witness :
    ∃ k items,
      (scanLoop pageScriptServer false (some 3) (c8pages.length + 1) c8sp []
          { server := c8pages, trace := [] }).1 = Except.ok items ∧
      items = pageItems (c8pages.take k) ∧
      3 ≤ items.length ∧
      items.length ≤ 3 + 2 ∧
      countScanCalls (scanLoop pageScriptServer false (some 3)
          (c8pages.length + 1) c8sp []
          { server := c8pages, trace := [] }).2.trace =
        countScanCalls [] + k ∧
      1 ≤ k ∧ k ≤ c8pages.length ∧
      (k = c8pages.length ∨ 3 ≤ (pageItems (c8pages.take k)).length) ∧
      (∀ i, 1 ≤ i → i < k → (pageItems (c8pages.take i)).length < 3) :=
  (paginated_read_limit 3 2 c8pages false c8sp c8qp []
    (by decide) ⟨rfl, rfl, trivial⟩ (by decide) (by decide)).1

end AwsUtilDynamo
